import Mathlib

/-
Verification of the despasito thermodynamic calculation core
(despasito/thermodynamics/calc.py) against its natural-language
specification.

The Python module is shallowly embedded: machine floats are modeled by the
type EF below (exact rationals plus signed infinities and NaN, following
IEEE-754 semantics for the operations actually used by the module; signed
zeros are not distinguished).  External collaborators (the EOS object,
scipy spline fitting and optimizers, and the random stream) are oracle
parameters collected in an environment structure; the control flow, NumPy
elementwise arithmetic, comparisons and reductions of the module itself are
modeled concretely.  Python exceptions are modeled by an Except monad.
-/

namespace Despasito

set_option maxRecDepth 100000
set_option maxHeartbeats 40000000

/-- Kernel-computable rational literal n/d. -/
def qlit (n d : Int) : ℚ := Rat.divInt n d

/-- Kernel-computable rational addition.  The Batteries Rat operations are
marked irreducible and block kernel evaluation, so arithmetic is routed
through Rat.divInt, which reduces; the lemmas below identify these
operations with the field operations of the rationals. -/
def qadd (a b : ℚ) : ℚ :=
  Rat.divInt (a.num * b.den + b.num * a.den) (a.den * b.den)

/-- Kernel-computable rational multiplication. -/
def qmul (a b : ℚ) : ℚ := Rat.divInt (a.num * b.num) (a.den * b.den)

/-- Kernel-computable rational division (zero divisor gives zero, matching
the Mathlib convention; NaN production at zero divisors is handled one level
up, in the scalar type EF). -/
def qdiv (a b : ℚ) : ℚ := Rat.divInt (a.num * b.den) (a.den * b.num)

/-- Kernel-computable rational reciprocal. -/
def qinv (a : ℚ) : ℚ := Rat.divInt a.den a.num

/-- Kernel-computable rational subtraction. -/
def qsub (a b : ℚ) : ℚ := qadd a (-b)

/-- Kernel-computable rational absolute value. -/
def qabs (a : ℚ) : ℚ := if a < 0 then -a else a

/-- Scalar value of numpy double arithmetic, idealized: exact rationals for
finite values, plus signed infinities and NaN. -/
inductive EF where
  | num : ℚ → EF
  | pinf : EF
  | ninf : EF
  | nan : EF
deriving DecidableEq, Repr

namespace EF

/-- numpy isnan; note that infinities are not NaN. -/
def isnan : EF → Bool
  | nan => true
  | _ => false

/-- IEEE negation. -/
def neg : EF → EF
  | num a => num (-a)
  | pinf => ninf
  | ninf => pinf
  | nan => nan

/-- IEEE addition. -/
def add : EF → EF → EF
  | nan, _ => nan
  | _, nan => nan
  | num a, num b => num (qadd a b)
  | num _, pinf => pinf
  | pinf, num _ => pinf
  | pinf, pinf => pinf
  | num _, ninf => ninf
  | ninf, num _ => ninf
  | ninf, ninf => ninf
  | pinf, ninf => nan
  | ninf, pinf => nan

/-- IEEE subtraction. -/
def sub (a b : EF) : EF := add a (neg b)

/-- IEEE multiplication; zero times infinity is NaN. -/
def mul : EF → EF → EF
  | nan, _ => nan
  | _, nan => nan
  | num a, num b => num (qmul a b)
  | num a, pinf => if a = 0 then nan else if 0 < a then pinf else ninf
  | num a, ninf => if a = 0 then nan else if 0 < a then ninf else pinf
  | pinf, num b => if b = 0 then nan else if 0 < b then pinf else ninf
  | ninf, num b => if b = 0 then nan else if 0 < b then ninf else pinf
  | pinf, pinf => pinf
  | ninf, ninf => pinf
  | pinf, ninf => ninf
  | ninf, pinf => ninf

/-- IEEE division as numpy array division performs it: x/0 gives a signed
infinity for x nonzero and NaN for 0/0 (signed zeros are not modeled). -/
def div : EF → EF → EF
  | nan, _ => nan
  | _, nan => nan
  | num a, num b =>
      if b = 0 then (if a = 0 then nan else if 0 < a then pinf else ninf)
      else num (qdiv a b)
  | num _, pinf => num 0
  | num _, ninf => num 0
  | pinf, num b => if 0 ≤ b then pinf else ninf
  | ninf, num b => if 0 ≤ b then ninf else pinf
  | pinf, pinf => nan
  | pinf, ninf => nan
  | ninf, pinf => nan
  | ninf, ninf => nan

/-- IEEE less-than: any comparison with NaN is false. -/
def ltb : EF → EF → Bool
  | nan, _ => false
  | _, nan => false
  | num a, num b => decide (a < b)
  | num _, pinf => true
  | num _, ninf => false
  | pinf, _ => false
  | ninf, num _ => true
  | ninf, pinf => true
  | ninf, ninf => false

/-- IEEE equality test: any comparison with NaN is false. -/
def eqb : EF → EF → Bool
  | nan, _ => false
  | _, nan => false
  | num a, num b => decide (a = b)
  | pinf, pinf => true
  | ninf, ninf => true
  | _, _ => false

/-- IEEE inequality test: NaN is unequal to everything, itself included. -/
def neb (a b : EF) : Bool := !eqb a b

/-- IEEE less-or-equal. -/
def leb (a b : EF) : Bool := ltb a b || eqb a b

/-- IEEE greater-than. -/
def gtb (a b : EF) : Bool := ltb b a

/-- IEEE greater-or-equal. -/
def geb (a b : EF) : Bool := leb b a

/-- IEEE absolute value. -/
def npabs : EF → EF
  | num a => num (qabs a)
  | nan => nan
  | _ => pinf

/-- True for a finite nonzero value; used to state no-zero-entry hypotheses. -/
def isNonzeroNum : EF → Bool
  | num a => decide (a ≠ 0)
  | _ => false

end EF

/-- np.sum of a 1-d array (left fold of IEEE addition over 0.0). -/
def npsum (l : List EF) : EF := l.foldl EF.add (EF.num 0)

/-- np.nansum: sum treating NaN entries as zero. -/
def npnansum (l : List EF) : EF :=
  (l.filter (fun x => !x.isnan)).foldl EF.add (EF.num 0)

/-- np.nanmax: maximum ignoring NaN entries; NaN when no entry is finite. -/
def npnanmax (l : List EF) : EF :=
  match l.filter (fun x => !x.isnan) with
  | [] => EF.nan
  | x :: xs => xs.foldl (fun a b => if EF.ltb a b then b else a) x

/-- Binary np.minimum: propagates NaN. -/
def npmin2 (a b : EF) : EF :=
  if a.isnan || b.isnan then EF.nan else if EF.ltb b a then b else a

/-- Errors raised by the Python code (ValueError, IndexError, NameError and
the ambiguous-truth-value error of multi-element boolean arrays). -/
inductive Err where
  | valueMultipleAbove10
  | valueMultipleNonzero (bead : String)
  | valueRange
  | valuePminIter
  | valuePnonpos
  | valuePhilNan
  | valueNoPrange
  | valueCritical (bead : String)
  | emptyReduce
  | indexOut
  | ambiguousTruth
  | nameUnbound
  | scipyRaise
deriving DecidableEq, Repr

instance {ε α : Type} [DecidableEq ε] [DecidableEq α] :
    DecidableEq (Except ε α)
  | .error e, .error f =>
    match decEq e f with
    | isTrue h => isTrue (by rw [h])
    | isFalse h => isFalse (fun hh => h (Except.error.inj hh))
  | .error _, .ok _ => isFalse (fun h => Except.noConfusion h)
  | .ok _, .error _ => isFalse (fun h => Except.noConfusion h)
  | .ok a, .ok b =>
    match decEq a b with
    | isTrue h => isTrue (by rw [h])
    | isFalse h => isFalse (fun hh => h (Except.ok.inj hh))

/-- np.min / builtin min over a numpy array: NaN-propagating reduction,
raising on an empty array. -/
def npminE (l : List EF) : Except Err EF :=
  match l with
  | [] => .error .emptyReduce
  | x :: xs => .ok (xs.foldl npmin2 x)

/-- np.amax over a numpy array of rationals, raising on an empty array. -/
def npamaxQ (l : List ℚ) : Except Err ℚ :=
  match l with
  | [] => .error .emptyReduce
  | x :: xs => .ok (xs.foldl (fun a b => if a < b then b else a) x)

/-- np.argmax: index of the first maximal entry; the first NaN poisons the
reduction and its index is returned, as numpy does. -/
def npargmax (l : List EF) : Except Err ℕ :=
  match l.findIdx? EF.isnan with
  | some i => .ok i
  | none =>
    match l with
    | [] => .error .emptyReduce
    | x :: xs =>
      let m := xs.foldl (fun a b => if EF.ltb a b then b else a) x
      .ok (l.findIdx (fun v => EF.eqb v m))

/-- Indexing an array, raising IndexError when out of bounds. -/
def getE (l : List EF) (i : ℕ) : Except Err EF :=
  if h : i < l.length then .ok l[i] else .error .indexOut

/-- Elementwise binary operation on arrays of equal length (numpy broadcasting
of different lengths is never exercised by the modeled call sites). -/
def ewise (f : EF → EF → EF) (a b : List EF) : List EF := List.zipWith f a b

/-- Array divided elementwise by a scalar. -/
def sdiv (l : List EF) (s : EF) : List EF := l.map (fun x => EF.div x s)

/-- np.diff: differences of consecutive entries. -/
def npdiff (l : List EF) : List EF :=
  (l.zip l.tail).map (fun p => EF.sub p.2 p.1)

/-- Indices at which a predicate holds (np.where on a boolean mask). -/
def idxWhere (l : List EF) (p : EF → Bool) : List ℕ :=
  (List.range l.length).filter (fun i => p (l.getD i EF.nan))

/-- First index satisfying a predicate (np.argwhere(...)[0][0]), raising
IndexError when there is none. -/
def firstIdxWhere (l : List EF) (p : EF → Bool) : Except Err ℕ :=
  match l.findIdx? p with
  | some i => .ok i
  | none => .error .indexOut

/-- Truth value of a boolean numpy array as used in an if-statement:
one element gives that element, several raise, an empty array is falsy
(numpy 1.16 deprecation behavior). -/
def arrTruth (l : List Bool) : Except Err Bool :=
  match l with
  | [] => .ok false
  | [b] => .ok b
  | _ => .error .ambiguousTruth

/-- Fancy indexing l[idx] with an index array, raising when out of bounds. -/
def selectE (l : List EF) (idx : List ℕ) : Except Err (List EF) :=
  idx.foldr (fun i acc => do
    let x ← getE l i
    let xs ← acc
    .ok (x :: xs)) (.ok [])

/-- min over the positive entries of an array (l[l>0] then min), raising on
an empty selection as numpy reductions do. -/
def minPosE (l : List EF) : Except Err EF :=
  npminE (l.filter (fun x => EF.ltb (EF.num 0) x))

/-- np.sort of a two-element array; NaN sorts last. -/
def sort2 (a b : EF) : List EF :=
  if a.isnan then [b, a]
  else if b.isnan then [a, b]
  else if EF.leb a b then [a, b] else [b, a]

/-- np.linspace over exact rationals. -/
def linspace (a b : ℚ) (n : ℕ) : List ℚ :=
  (List.range n).map (fun i => qadd a (qdiv (qmul (qsub b a) (i : ℚ)) (qsub (n : ℚ) 1)))

/-- Replace NaN entries by zero (the idiom arr[np.isnan(arr)] = 0). -/
def zeroNan (l : List EF) : List EF :=
  l.map (fun x => if x.isnan then EF.num 0 else x)

/-- Last n entries of a list (the slice l[-n:]). -/
def lastN (n : ℕ) (l : List α) : List α := l.drop (l.length - n)

/-- np.finfo(float).eps, that is 2 to the power -52. -/
def epsQ : ℚ := qlit 1 4503599627370496

/-- The duck-typed EOS collaborator consumed by the module: pressure,
maximum density, fugacity coefficients, bead names and the stoichiometry
matrix.  All numeric behavior is an oracle. -/
structure EOS where
  pressure : EF → ℚ → List EF → EF
  density_max : List EF → ℚ → ℚ
  fugacity_coefficient : EF → EF → List EF → ℚ → List EF
  beads : List String
  nui : List (List ℚ)

/-- Oracles for the scipy and numpy numeric kernels used by the module.
Spline oracles receive the raw sampled curve (the Gaussian smoothing and the
actual spline fit are folded into the oracle).  Optimizer oracles receive the
objective function, the start point and the bounds; a None result of minimize
models a raised scipy exception at a call site wrapped in try/except. -/
structure NumOracles where
  sproots : List ℚ → List EF → List EF
  spextrema : List ℚ → List EF → List EF
  speval : List ℚ → List EF → EF → EF
  spintegral : List ℚ → List EF → EF → EF → EF
  minimize_scalar : (EF → Except Err EF) → EF × EF → Except Err EF
  minimize : (EF → EF) → EF → List (EF × EF) → Option EF
  brentq : (EF → EF) → EF → EF → EF
  least_squares : (EF → Except Err EF) → EF → ℚ × ℚ → Except Err EF
  polyfit1 : List ℚ → List EF → EF × EF
  polyfitE : List EF → List EF → EF × EF
  quadroots : List EF → List EF → List EF
  cubderroots : List EF → List EF → List EF
  rand : ℕ → ℚ
  /-- Modelled from the spec: gtb.solve_root, the generic scalar root solver
  of the fit toolbox, is not part of the sources under src/; per the spec it
  evaluates the objective repeatedly between the given bounds starting from
  x0 and returns the final pressure, so it is modeled as an oracle that
  threads the module-global warm start through those objective calls. -/
  solve_rootP : (EF → Option (List EF) → Except Err (EF × Option (List EF))) →
    EF → EF × EF → Option (List EF) → Except Err (EF × Option (List EF))

/-- The full environment of external collaborators. -/
structure Env where
  eos : EOS
  orc : NumOracles

/-- The rhodict options of PvsRho. -/
structure RhoOpts where
  minrhofrac : ℚ
  rhoinc : ℚ
  vspacemax : ℚ
  maxrho : Option ℚ

/-- Default rhodict: minrhofrac 1/500000, rhoinc 5.0, vspacemax 1e-4. -/
def defaultRhoOpts : RhoOpts := ⟨qlit 1 500000, qlit 5 1, qlit 1 10000, none⟩

/-- np.arange over exact rationals (positive step at every modeled call). -/
def arangeQ (a b step : ℚ) : List ℚ :=
  if step ≤ 0 then []
  else (List.range (Rat.ceil (qdiv (qsub b a) step)).toNat).map
    (fun i => qadd a (qmul step (i : ℚ)))

/-- PvsRho: build the density grid from rho max times minrhofrac up to
rho max with increment rhoinc, re-sample sub-ranges whose specific-volume
spacing exceeds vspacemax at uniform specific-volume spacing, evaluate the
EOS pressure on the grid, and return the curve ordered by increasing
specific volume.  Raises when the density range is below the increment. -/
def PvsRho (env : Env) (T : ℚ) (xi : List EF) (o : RhoOpts) :
    Except Err (List ℚ × List EF) := do
  let maxrho : ℚ := match o.maxrho with
    | none => env.eos.density_max xi T
    | some m => if m = 0 then env.eos.density_max xi T else m
  let minrho := qmul maxrho o.minrhofrac
  if qsub maxrho minrho < o.rhoinc then throw .valueRange
  let rholist := arangeQ minrho maxrho o.rhoinc
  let vspace := (rholist.zip rholist.tail).map
    (fun p => qsub (qinv p.1) (qinv p.2))
  let vmax ← npamaxQ vspace
  let rholist2 ←
    if o.vspacemax < vmax then do
      let idxs := (List.range vspace.length).filter
        (fun i => o.vspacemax < vspace.getD i 0)
      match idxs.getLast? with
      | none => throw .indexOut
      | some vs => do
        let rv1 := rholist.getD (vs + 1) 0
        let rl2 := ((arangeQ (qinv rv1) (qinv minrho) o.vspacemax).reverse).map
          (fun v => qinv v)
        pure (rl2 ++ rholist.drop (vs + 2))
    else pure rholist
  let Plist := rholist2.map (fun r => env.eos.pressure (EF.num r) T xi)
  pure ((rholist2.reverse).map (fun r => qinv r), Plist.reverse)

/-- PvsV_spline: fit the (smoothed) curve, collect spline roots and the
first two extrema, and report roots as the single value NaN whenever any
raw pressure sample is NaN. -/
def PvsV_spline (env : Env) (vlist : List ℚ) (Plist : List EF) :
    List EF × List EF :=
  let roots := env.orc.sproots vlist Plist
  let extrema0 := env.orc.spextrema vlist Plist
  let extrema := if 2 < extrema0.length then extrema0.take 2 else extrema0
  let roots1 := if Plist.any EF.isnan then [EF.nan] else roots
  (roots1, extrema)

/-- calc_yi: yi entries are xi times phi liquid over phi vapor at the
indices where xi is nonzero, zero elsewhere. -/
def calc_yi (xi phil phiv : List EF) : List EF :=
  (List.range xi.length).map (fun i =>
    if EF.neb (xi.getD i EF.nan) (EF.num 0) then
      EF.div (EF.mul (xi.getD i EF.nan) (phil.getD i EF.nan))
        (phiv.getD i EF.nan)
    else EF.num 0)

/-- calc_xi: xi entries are yi times phi vapor over phi liquid at the
indices where yi is nonzero, zero elsewhere. -/
def calc_xi (yi phiv phil : List EF) : List EF :=
  (List.range yi.length).map (fun i =>
    if EF.neb (yi.getD i EF.nan) (EF.num 0) then
      EF.div (EF.mul (yi.getD i EF.nan) (phiv.getD i EF.nan))
        (phil.getD i EF.nan)
    else EF.num 0)

/-- The literal 1e-28 used as a density lower bound. -/
def qEm28 : ℚ := qlit 1 10000000000000000000000000000

/-- Pdiff: EOS pressure at the given density minus the set pressure. -/
def Pdiff (env : Env) (rho : EF) (Pset : EF) (T : ℚ) (xi : List EF) : EF :=
  EF.sub (env.eos.pressure rho T xi) Pset

/-- Substring test (the Python expression needle in hay). -/
def strContains (hay needle : String) : Bool :=
  (List.range (hay.data.length + 1)).any
    (fun i => needle.data.isPrefixOf (hay.data.drop i))

/-- One pass of the root-bracketing scan of interp_vroot: starting from the
index stored at position i, find the first sign change of the pressure list
(alternating sign with i) and store it at position i+1; stop early when no
strictly positive index matches. -/
def interpScan (Plist : List EF) : ℕ → ℕ → List ℕ → List ℕ
  | _, 0, arr => arr
  | i, fuel + 1, arr =>
    let ai := arr.getD i 0
    if ai + 1 < Plist.length then
      let s : ℚ := if i % 2 = 0 then 1 else -1
      let tmp := idxWhere (Plist.drop ai)
        (fun x => EF.ltb (EF.mul x (EF.num s)) (EF.num 0))
      if tmp.any (fun n => n ≠ 0) then
        interpScan Plist (i + 1) fuel (arr.set (i + 1) (tmp.headD 0 + ai))
      else arr
    else interpScan Plist (i + 1) fuel arr

/-- interp_vroot: re-estimate a liquid specific-volume root from the closest
sign change of the raw sampled curve; the given estimate is kept when it
already lies between the bracketing samples. -/
def interp_vroot (v0 : EF) (vlist : List ℚ) (Plist : List EF) :
    Except Err EF := do
  let arr := interpScan Plist 0 3 [0, 0, 0, 0]
  let ind_array := arr.filter (fun n => 0 < n)
  let ind ←
    match ind_array with
    | [] => throw Err.nameUnbound
    | [i] => pure i
    | _ => do
      let vs ← ind_array.foldrM (fun i xs =>
        if h : i < vlist.length then pure (vlist[i] :: xs)
        else throw Err.indexOut) []
      let tmp := vs.map (fun vi => EF.npabs (EF.sub (EF.num vi) v0))
      let mn ← npminE tmp
      match (idxWhere tmp (fun x => EF.eqb x mn)).head? with
      | none => throw Err.indexOut
      | some j =>
        match ind_array.get? j with
        | none => throw Err.indexOut
        | some i => pure i
  if hi : ind < vlist.length then do
    let vprev := vlist.getD (ind - 1) 0
    let vcur := vlist[ind]
    if EF.ltb v0 (EF.num vprev) || EF.gtb v0 (EF.num vcur) then do
      let Pcur ← getE Plist ind
      let Pprev ← getE Plist (ind - 1)
      let m := EF.div (EF.sub Pcur Pprev) (EF.num (qsub vcur vprev))
      pure (EF.div (EF.neg m) (EF.sub Pcur (EF.mul m (EF.num vcur))))
    else pure v0
  else throw Err.indexOut

/-- eq_area: squared sum of the two areas of the Maxwell construction for a
trial pressure shift; the tail area is extrapolated as a triangle when only
two roots are present, and a curve without enough roots leaves the area
variables unbound (a NameError in the source). -/
def eq_area (env : Env) (Pv : List EF) (vlist : List ℚ) (shift : EF) :
    Except Err EF := do
  let Pshift := Pv.map (fun x => EF.sub x shift)
  let (roots, _extrema) := PvsV_spline env vlist Pshift
  if 3 ≤ roots.length then do
    let r0 ← getE roots 0
    let r1 ← getE roots 1
    let r2 ← getE roots 2
    let a := env.orc.spintegral vlist Pshift r0 r1
    let b := env.orc.spintegral vlist Pshift r1 r2
    pure (EF.mul (EF.add a b) (EF.add a b))
  else if roots.length = 2 then do
    let r0 ← getE roots 0
    let r1 ← getE roots 1
    let a := env.orc.spintegral vlist Pshift r0 r1
    let sl := env.orc.polyfit1 (lastN 4 vlist) (lastN 4 Pshift)
    match vlist.getLast?, Pshift.getLast? with
    | some vlast, some plast =>
      let b := EF.add (env.orc.spintegral vlist Pshift r1 (EF.num vlast))
        (EF.div (EF.mul plast (EF.sub (EF.div (EF.neg sl.2) sl.1)
          (EF.num vlast))) (EF.num 2))
      pure (EF.mul (EF.add a b) (EF.add a b))
    | _, _ => throw Err.indexOut
  else throw Err.nameUnbound

/-- calc_Psat: validate that exactly one component is present, build the
curve, return NaN saturation pressure with unit dummy densities when the
curve has fewer than two extrema or NaN roots, and otherwise solve the
equal-area construction and return the saturation pressure with the
reciprocals of the first and third shifted roots. -/
def calc_Psat (env : Env) (T : ℚ) (xi : List EF) (o : RhoOpts) :
    Except Err (EF × EF × EF) := do
  if (xi.countP (fun x => EF.neb x (EF.num 0))) ≠ 1 then
    if (xi.countP (fun x => EF.gtb x (EF.num (qlit 1 10)))) ≠ 1 then
      throw Err.valueMultipleAbove10
    else
      match xi.findIdx? (fun x => EF.gtb x (EF.num (qlit 1 10))) with
      | none => throw Err.indexOut
      | some i =>
        match env.eos.beads.get? i with
        | none => throw Err.indexOut
        | some bead => throw (Err.valueMultipleNonzero bead)
  else do
    let (vlist, Plist) ← PvsRho env T xi o
    let (roots, extrema) := PvsV_spline env vlist Plist
    if extrema.length < 2 || roots.any EF.isnan then
      pure (EF.nan, EF.div (EF.num 1) (EF.num 1), EF.div (EF.num 1) (EF.num 1))
    else do
      let ind_Pmin1 ← firstIdxWhere (npdiff Plist)
        (fun x => EF.gtb x (EF.num 0))
      let tailmax ← npargmax (Plist.drop ind_Pmin1)
      let ind_Pmax1 := tailmax + ind_Pmin1
      let Pmaxsearch ← getE Plist ind_Pmax1
      let innerMin ← npminE ((Plist.drop ind_Pmin1).take (ind_Pmax1 - ind_Pmin1))
      let Pminsearch := if EF.gtb innerMin (EF.num 10) then innerMin
        else EF.num 10
      let Psat ← env.orc.minimize_scalar (eq_area env Plist vlist)
        (Pminsearch, Pmaxsearch)
      let Pshift := Plist.map (fun x => EF.sub x Psat)
      let rp := PvsV_spline env vlist Pshift
      let roots2 := rp.1
      let roots3 ←
        if roots2.length = 2 then do
          let sl := env.orc.polyfit1 (lastN 4 vlist) (lastN 4 Pshift)
          let vroot0 := EF.neg (EF.div sl.2 sl.1)
          let vroot := if EF.ltb vroot0 (EF.num 0) then EF.num epsQ else vroot0
          let rlast ← getE roots2 (roots2.length - 1)
          match env.orc.minimize (fun rho => Pdiff env rho Psat T xi)
              (EF.div (EF.num 1) vroot)
              [(EF.div (EF.num 1) (EF.mul vroot (EF.num 100)),
                EF.div (EF.num 1) (EF.mul (EF.num (qlit 11 10)) rlast))] with
          | some rho_tmp => pure (roots2 ++ [EF.div (EF.num 1) rho_tmp])
          | none => throw Err.scipyRaise
        else pure roots2
      let r0 ← getE roots3 0
      let r2 ← getE roots3 2
      pure (Psat, EF.div (EF.num 1) r0, EF.div (EF.num 1) r2)

/-- calc_rhov: classify the curve shape at the target pressure and produce a
vapor density estimate with an integer phase flag (0 vapor, 1 liquid,
2 critical, 3 no stable phase, 4 ideal gas), then refine vapor or critical
estimates by bracketed root finding when a bracket exists. -/
def calc_rhov (env : Env) (P : EF) (T : ℚ) (xi : List EF) (o : RhoOpts) :
    Except Err (EF × EF) := do
  let cur ← PvsRho env T xi o
  let vlist := cur.1
  let Plist := cur.2.map (fun x => EF.sub x P)
  let (roots, extrema) := PvsV_spline env vlist Plist
  let l_roots := roots.length
  let (rho_tmp, flag, flag_NoOpt) ←
    if roots.any EF.isnan then
      pure (EF.nan, EF.num 3, false)
    else if l_roots = 0 then do
      match vlist.getLast? with
      | none => throw Err.indexOut
      | some vlast =>
        if EF.ltb (env.orc.speval vlist Plist (EF.num (qinv vlast)))
            (EF.num 0) then do
          let flag := if extrema.length = 0 then EF.num 2 else EF.num 1
          let rho ←
            match vlist.head? with
            | none => throw Err.indexOut
            | some v0 =>
              match env.orc.minimize (fun r => Pdiff env r P T xi)
                  (EF.num (qinv v0))
                  [(EF.num qEm28,
                    EF.num (qmul (env.eos.density_max xi T) (qlit 99 100)))] with
              | some r => pure r
              | none => pure (EF.num (qinv v0))
          pure (rho, flag, true)
        else do
          let mn ← npminE Plist
          if EF.gtb (EF.add mn P) (EF.num 0) then do
            let sl := env.orc.polyfit1 (lastN 4 vlist) (lastN 4 Plist)
            let vroot := EF.neg (EF.div sl.2 sl.1)
            let rho ←
              match roots.getLast? with
              | none => pure EF.nan
              | some rl =>
                match env.orc.minimize (fun r => Pdiff env r P T xi)
                    (EF.div (EF.num 1) vroot)
                    [(EF.num qEm28,
                      EF.div (EF.num 1) (EF.mul (EF.num (qlit 11 10)) rl))] with
                | some r => pure r
                | none => pure EF.nan
            let flag := if rho.isnan then EF.num 4 else EF.num 0
            pure (rho, flag, false)
          else
            pure (EF.nan, EF.num 3, false)
    else if l_roots = 1 then do
      let r0 ← getE roots 0
      if extrema.length = 0 then
        pure (EF.div (EF.num 1) r0, EF.num 2, false)
      else do
        let mxe ← match extrema with
          | [] => throw Err.emptyReduce
          | e :: es =>
            pure (es.foldl (fun a b => if EF.gtb b a then b else a) e)
        if EF.gtb (EF.add (env.orc.speval vlist Plist r0) P)
            (EF.add (env.orc.speval vlist Plist mxe) P) then
          pure (EF.div (EF.num 1) r0, EF.num 1, false)
        else if 1 < extrema.length then
          pure (EF.div (EF.num 1) r0, EF.num 0, false)
        else throw Err.nameUnbound
    else if l_roots = 2 then do
      let r0 ← getE roots 0
      if EF.ltb (EF.add (env.orc.speval vlist Plist r0) P) (EF.num 0) then
        pure (EF.div (EF.num 1) r0, EF.num 1, false)
      else do
        let sl := env.orc.polyfit1 (lastN 4 vlist) (lastN 4 Plist)
        let vroot := EF.neg (EF.div sl.2 sl.1)
        let rlast ← getE roots (l_roots - 1)
        match env.orc.minimize (fun r => Pdiff env r P T xi)
            (EF.div (EF.num 1) vroot)
            [(EF.num qEm28,
              EF.div (EF.num 1) (EF.mul (EF.num (qlit 11 10)) rlast))] with
        | some r => pure (r, EF.num 0, false)
        | none => throw Err.scipyRaise
    else do
      let r2 ← getE roots 2
      pure (EF.div (EF.num 1) r2, EF.num 0, false)
  let rho_final ←
    if flag = EF.num 0 || flag = EF.num 2 then do
      let dmax := env.eos.density_max xi T
      let t0 := EF.mul rho_tmp (EF.num (qlit 99 100))
      let t1a := EF.mul rho_tmp (EF.num (qlit 101 100))
      let t1 := if EF.gtb t1a (EF.num (qmul dmax (qlit 9999 10000))) then
          EF.num (qmul dmax (qlit 9999 10000)) else t1a
      if EF.ltb (EF.mul (Pdiff env t0 P T xi) (Pdiff env t1 P T xi))
          (EF.num 0) then
        pure (env.orc.brentq (fun r => Pdiff env r P T xi) t0 t1)
      else
        match Plist.head? with
        | none => throw Err.indexOut
        | some p0 =>
          if EF.ltb p0 (EF.num 0) then pure rho_tmp
          else if !flag_NoOpt then
            match env.orc.minimize (fun r => Pdiff env r P T xi) rho_tmp
                [(EF.num qEm28, EF.num (qmul dmax (qlit 99 100)))] with
            | some r => pure r
            | none => throw Err.scipyRaise
          else pure rho_tmp
    else pure rho_tmp
  pure (rho_final, flag)

/-- calc_rhol: classify the curve shape at the target pressure and produce a
liquid density estimate with an integer phase flag (0 vapor, 1 liquid,
2 critical, 3 no stable phase, 4 ideal gas), then refine liquid or critical
estimates by bracketed root finding when a bracket exists. -/
def calc_rhol (env : Env) (P : EF) (T : ℚ) (xi : List EF) (o : RhoOpts) :
    Except Err (EF × EF) := do
  let cur ← PvsRho env T xi o
  let vlist := cur.1
  let Plist := cur.2.map (fun x => EF.sub x P)
  let (roots, extrema) := PvsV_spline env vlist Plist
  let l_roots := roots.length
  let (rho_tmp, flag, flag_NoOpt) ←
    if roots.any EF.isnan then
      pure (EF.nan, EF.num 3, false)
    else if l_roots = 0 then do
      match vlist.getLast? with
      | none => throw Err.indexOut
      | some vlast =>
        if EF.neb (env.orc.speval vlist Plist (EF.num (qinv vlast)))
            (EF.num 0) then do
          let flag := if extrema.length = 0 then EF.num 2 else EF.num 1
          let rho ←
            match vlist.head? with
            | none => throw Err.indexOut
            | some v0 =>
              match env.orc.minimize (fun r => Pdiff env r P T xi)
                  (EF.num (qinv v0))
                  [(EF.num qEm28,
                    EF.num (qmul (env.eos.density_max xi T) (qlit 99 100)))] with
              | some r => pure r
              | none => pure (EF.num (qinv v0))
          pure (rho, flag, true)
        else do
          let mn ← npminE Plist
          if EF.gtb (EF.add mn P) (EF.num 0) then do
            let sl := env.orc.polyfit1 (lastN 4 vlist) (lastN 4 Plist)
            let vroot := EF.neg (EF.div sl.2 sl.1)
            let rho ←
              match roots.getLast? with
              | none => pure EF.nan
              | some rl =>
                match env.orc.minimize (fun r => Pdiff env r P T xi)
                    (EF.div (EF.num 1) vroot)
                    [(EF.num qEm28,
                      EF.div (EF.num 1) (EF.mul (EF.num (qlit 11 10)) rl))] with
                | some r => pure r
                | none => pure EF.nan
            let flag := if rho.isnan then EF.num 4 else EF.num 0
            pure (rho, flag, false)
          else
            pure (EF.nan, EF.num 3, false)
    else if l_roots = 2 then do
      let r0 ← getE roots 0
      if EF.ltb (EF.add (env.orc.speval vlist Plist r0) P) (EF.num 0) then
        pure (EF.div (EF.num 1) r0, EF.num 1, false)
      else
        pure (EF.div (EF.num 1) r0, EF.num 1, false)
    else if l_roots = 1 then do
      let r0 ← getE roots 0
      if extrema.length = 0 then do
        let v ← interp_vroot r0 vlist Plist
        pure (EF.div (EF.num 1) v, EF.num 2, false)
      else do
        let mxe ← match extrema with
          | [] => throw Err.emptyReduce
          | e :: es =>
            pure (es.foldl (fun a b => if EF.gtb b a then b else a) e)
        if EF.gtb (EF.add (env.orc.speval vlist Plist r0) P)
            (EF.add (env.orc.speval vlist Plist mxe) P) then
          pure (EF.div (EF.num 1) r0, EF.num 1, false)
        else if 1 < extrema.length then
          pure (EF.div (EF.num 1) r0, EF.num 0, false)
        else throw Err.nameUnbound
    else do
      let r0 ← getE roots 0
      pure (EF.div (EF.num 1) r0, EF.num 1, false)
  let rho_final ←
    if flag = EF.num 1 || flag = EF.num 2 then do
      let t0 := EF.mul rho_tmp (EF.num (qlit 99 100))
      let t1 := EF.mul rho_tmp (EF.num (qlit 101 100))
      if EF.ltb (EF.mul (Pdiff env t0 P T xi) (Pdiff env t1 P T xi))
          (EF.num 0) then
        pure (env.orc.brentq (fun r => Pdiff env r P T xi) t0 t1)
      else
        match Plist.head? with
        | none => throw Err.indexOut
        | some p0 =>
          if EF.ltb p0 (EF.num 0) then pure rho_tmp
          else if !flag_NoOpt then
            match env.orc.minimize (fun r => Pdiff env r P T xi) rho_tmp
                [(EF.num qEm28,
                  EF.num (qmul (env.eos.density_max xi T) (qlit 99 100)))] with
            | some r => pure r
            | none => throw Err.scipyRaise
          else pure rho_tmp
    else pure rho_tmp
  pure (rho_final, flag)

/-- calc_phiv: classify and compute the vapor density, then return unit
fugacity coefficients with zero density for an ideal gas (flag 4), the
hardcoded two-entry NaN vector for no stable phase (flag 3), and the EOS
fugacity coefficients otherwise. -/
def calc_phiv (env : Env) (P : EF) (T : ℚ) (yi : List EF) (o : RhoOpts) :
    Except Err (List EF × EF × EF) := do
  let rf ← calc_rhov env P T yi o
  let rhov := rf.1
  let flagv := rf.2
  if flagv = EF.num 4 then
    pure (List.replicate yi.length (EF.num 1), EF.num 0, flagv)
  else if flagv = EF.num 3 then
    pure ([EF.nan, EF.nan], rhov, flagv)
  else
    pure (env.eos.fugacity_coefficient P rhov yi T, rhov, flagv)

/-- calc_phil: classify and compute the liquid density, then return the
hardcoded two-entry NaN vector for no stable phase (flag 3) and the EOS
fugacity coefficients otherwise. -/
def calc_phil (env : Env) (P : EF) (T : ℚ) (xi : List EF) (o : RhoOpts) :
    Except Err (List EF × EF × EF) := do
  let rf ← calc_rhol env P T xi o
  let rhol := rf.1
  let flagl := rf.2
  if flagl = EF.num 3 then
    pure ([EF.nan, EF.nan], rhol, flagl)
  else
    pure (env.eos.fugacity_coefficient P rhol xi T, rhol, flagl)

/-- One step of setPsat's loop over a stoichiometry row: a bead with a
positive entry overwrites the saturation pressure, with hardcoded values for
CO2, N2, CH4-like and CH3CH3-like beads and a generic fallback (which also
records the bead name) for anything else. -/
def setPsatStep (eos : EOS) (row : List ℚ) (st : Option EF × Option String)
    (j : ℕ) : Except Err (Option EF × Option String) := do
  let nij := row.getD j 0
  if 0 < nij then
    match eos.beads.get? j with
    | none => throw Err.indexOut
    | some bead =>
      if bead = "CO2" then
        pure (some (EF.num (qlit 10377000 1)), st.2)
      else if bead = "N2" then
        pure (some (EF.num (qlit 7377000 1)), st.2)
      else if strContains bead "CH4" then
        pure (some (EF.num (qlit 6377000 1)), st.2)
      else if strContains bead "CH3CH3" then
        pure (some (EF.num (qlit 7377000 1)), st.2)
      else
        pure (some (EF.num (qlit 7377000 1)), some bead)
  else pure st

/-- setPsat: fold the step over the stoichiometry row of the component.  The
pressure name is unbound (a NameError) when the row has no positive entry. -/
def setPsat (ind : ℕ) (eos : EOS) : Except Err (EF × String) := do
  if ind < eos.nui.length then do
    let row := eos.nui.getD ind []
    let st ← (List.range row.length).foldlM (setPsatStep eos row) (none, none)
    match st.1 with
    | none => throw Err.nameUnbound
    | some p => pure (p, st.2.getD "No NaNbead")
  else throw Err.indexOut

/-- Reading a Python name that may be unbound (NameError when it is). -/
def getOpt (x : Option α) : Except Err α :=
  match x with
  | some v => pure v
  | none => throw Err.nameUnbound

/-- Inner-loop solver options (the zi_opts dictionary): iteration cap,
tolerance, and whether the tolerance was explicitly provided. -/
structure ZiOpts where
  maxiter : ℕ
  tol : ℚ
  tolGiven : Bool

/-- Defaults of solve_yi_xiT: 30 iterations, tolerance 1e-8. -/
def defaultZiY : ZiOpts := ⟨30, qlit 1 100000000, false⟩

/-- Defaults of solve_xi_yiT: 20 iterations, tolerance 1e-6. -/
def defaultZiX : ZiOpts := ⟨20, qlit 1 1000000, false⟩

/-- obj_yi: internal-consistency objective for a trial vapor composition;
a scalar or single-entry argument is expanded to the binary pair first.
Returns the objective together with the phase flag of the first
classification. -/
def obj_yi (env : Env) (yi0 : List EF) (P : EF) (T : ℚ) (phil xi : List EF)
    (o : RhoOpts) : Except Err (EF × EF) := do
  let yi1 := if yi0.length = 1 then
      [yi0.getD 0 EF.nan, EF.sub (EF.num 1) (yi0.getD 0 EF.nan)]
    else yi0
  let yi := sdiv yi1 (npsum yi1)
  let pv ← calc_phiv env P T yi o
  let phiv := pv.1
  let flagv := pv.2.2
  let _tmp1 := ewise EF.mul yi phiv
  let yinew := ewise EF.div (ewise EF.mul xi phil) phiv
  let yi2 := sdiv yinew (npsum yinew)
  let pv2 ← calc_phiv env P T yi2 o
  let phiv2 := pv2.1
  let _tmp2 := ewise EF.mul yi2 phiv2
  let obj := npsum ((ewise EF.sub yinew
    (ewise EF.div (ewise EF.mul xi phil) phiv2)).map EF.npabs)
  pure (obj, flagv)

/-- find_new_yi: scan 30 vapor fractions of the first component between
0.01 and 0.99, score each by the consistency of two successive fugacity
predictions, drop NaN scores, prefer candidates whose flag is neither
liquid nor no-phase, and return the best scoring fraction as a binary
composition (NaN pair when no score is finite). -/
def find_new_yi (env : Env) (P : EF) (T : ℚ) (phil xi : List EF)
    (o : RhoOpts) : Except Err (List EF) := do
  let yi_ext := linspace (qlit 1 100) (qlit 99 100) 30
  let triples ← yi_ext.foldlM (fun (acc : List (EF × EF × ℚ)) y1 => do
      let yi : List EF := [EF.num y1, EF.sub (EF.num 1) (EF.num y1)]
      let pv ← calc_phiv env P T yi o
      let phiv := pv.1
      let flagv := pv.2.2
      let yinew1 := ewise EF.div (ewise EF.mul xi phil) phiv
      let t1 := npsum yinew1
      let yi2 := sdiv yinew1 t1
      let pv2 ← calc_phiv env P T yi2 o
      let phiv2 := pv2.1
      let tmp1 := ewise EF.mul yi phiv
      let tmp2 := ewise EF.mul yi2 phiv2
      let a0 ← getE tmp1 0
      let a1 ← getE tmp1 1
      let b0 ← getE tmp2 0
      let b1 ← getE tmp2 1
      let obj := EF.npabs (EF.sub (EF.div a0 a1) (EF.div b0 b1))
      pure (acc ++ [(obj, flagv, y1)])) []
  let finite := triples.filter (fun t => !t.1.isnan)
  if finite.length = 0 then
    pure [EF.nan, EF.sub (EF.num 1) EF.nan]
  else do
    let cand := finite.filter (fun t =>
      !(EF.eqb t.2.1 (EF.num 1) || EF.eqb t.2.1 (EF.num 3)))
    let pool := if cand.isEmpty then finite else cand
    let absobjs := pool.map (fun t => EF.npabs t.1)
    let mn ← npminE absobjs
    match (idxWhere absobjs (fun x => EF.eqb x mn)).head? with
    | none => throw Err.indexOut
    | some i =>
      let y := (pool.getD i (EF.nan, EF.nan, 0)).2.2
      pure [EF.num y, EF.sub (EF.num 1) (EF.num y)]

/-- One bisection pass of bracket_bounding_yi over the fraction interval,
carrying bounds, objectives, flags and the high-vapor switch. -/
def bracketLoop (env : Env) (P : EF) (T : ℚ) (phil xi : List EF)
    (tol : ℚ) (o : RhoOpts) :
    ℕ → (EF × EF) → (EF × EF) → (EF × EF) → Bool →
    Except Err ((EF × EF) × (EF × EF) × (EF × EF)) :=
  fun fuel bounds objb flagb fhv =>
    match fuel with
    | 0 => pure (bounds, objb, flagb)
    | fuel + 1 => do
      let y1 := EF.div (EF.add bounds.1 bounds.2) (EF.num 2)
      let r ← obj_yi env [y1] P T phil xi o
      let obj := r.1
      let flagv := r.2
      let (ind, fhv2, bounds1, objb1, flagb1) ←
        if !fhv then do
          let i0 ←
            if EF.eqb flagb.1 flagv then pure 0
            else if EF.eqb flagb.2 flagv then pure 1
            else throw Err.indexOut
          if EF.eqb flagv (EF.num 0) &&
              EF.gtb obj (EF.num (qinv tol)) then
            let pick := fun (p : EF × EF) (i : ℕ) => if i = 0 then p.1 else p.2
            pure (1, true,
              (pick bounds i0, bounds.2),
              (pick objb i0, objb.2),
              (pick flagb i0, flagb.2))
          else pure (i0, fhv, bounds, objb, flagb)
        else
          if EF.ltb obj objb.1 then pure (0, fhv, bounds, objb, flagb)
          else pure (1, fhv, bounds, objb, flagb)
      let bounds2 := if ind = 0 then (y1, bounds1.2) else (bounds1.1, y1)
      let objb2 := if ind = 0 then (obj, objb1.2) else (objb1.1, obj)
      let flagb2 := if ind = 0 then (flagv, flagb1.2) else (flagb1.1, flagv)
      if EF.ltb (EF.npabs (EF.sub bounds2.2 bounds2.1)) (EF.num tol) then
        pure (bounds2, objb2, flagb2)
      else bracketLoop env P T phil xi tol o fuel bounds2 objb2 flagb2 fhv2

/-- bracket_bounding_yi: evaluate the objective at both bounds; when their
flags differ, bisect, replacing the bound whose flag matches (switching to
objective comparison once a spurious high-objective vapor is seen); finally
prefer the unique vapor-flagged bound, or the lower objective. -/
def bracket_bounding_yi (env : Env) (P : EF) (T : ℚ) (phil xi : List EF)
    (bounds : List EF) (maxiter : ℕ) (tol : ℚ) (o : RhoOpts) :
    Except Err (List EF × EF) := do
  if bounds.length ≠ 2 then throw Err.valueRange
  else do
    let b0 ← getE bounds 0
    let b1 ← getE bounds 1
    let r0 ← obj_yi env [b0] P T phil xi o
    let r1 ← obj_yi env [b1] P T phil xi o
    let st ←
      if EF.eqb r0.2 r1.2 then
        pure ((b0, b1), (r0.1, r1.1), (r0.2, r1.2))
      else
        bracketLoop env P T phil xi tol o maxiter
          (b0, b1) (r0.1, r1.1) (r0.2, r1.2) false
    let (bds, objb, flagb) := st
    let zeroFlags := (if EF.eqb flagb.1 (EF.num 0) then [0] else []) ++
      (if EF.eqb flagb.2 (EF.num 0) then [1] else [])
    let ind ←
      match zeroFlags with
      | [i] => pure i
      | _ => do
        let mn ← npminE [objb.1, objb.2]
        match (idxWhere [objb.1, objb.2] (fun x => EF.eqb x mn)).head? with
        | none => throw Err.indexOut
        | some i => pure i
    let y1 := if ind = 0 then bds.1 else bds.2
    let flagv := if ind = 0 then flagb.1 else flagb.2
    pure ([y1, EF.sub (EF.num 1) y1], flagv)

/-- obj_xi: internal-consistency objective for a trial liquid composition;
a scalar or single-entry argument is expanded to the binary pair first
(this variant does not renormalize its argument). -/
def obj_xi (env : Env) (xi0 : List EF) (P : EF) (T : ℚ) (phiv yi : List EF)
    (o : RhoOpts) : Except Err EF := do
  let xi := if xi0.length = 1 then
      [xi0.getD 0 EF.nan, EF.sub (EF.num 1) (xi0.getD 0 EF.nan)]
    else xi0
  let pl ← calc_phil env P T xi o
  let phil := pl.1
  let xinew1 := ewise EF.div (ewise EF.mul yi phiv) phil
  let t1 := npsum xinew1
  let xi2 := sdiv xinew1 t1
  let pl2 ← calc_phil env P T xi2 o
  let phil2 := pl2.1
  let xinew2 := ewise EF.div (ewise EF.mul yi phiv) phil2
  let t2 := npsum xinew2
  pure (EF.npabs (EF.sub t1 t2))

/-- find_new_xi: scan 30 liquid fractions of the first component between
0.001 and 0.999, score each by the difference of two successive predicted
totals, drop NaN scores, prefer candidates whose second flag is none of
vapor, no-phase or ideal-gas, and return the best scoring fraction as a
binary composition (NaN pair when no score is finite). -/
def find_new_xi (env : Env) (P : EF) (T : ℚ) (phiv yi : List EF)
    (o : RhoOpts) : Except Err (List EF) := do
  let xi_ext := linspace (qlit 1 1000) (qlit 999 1000) 30
  let triples ← xi_ext.foldlM (fun (acc : List (EF × EF × ℚ)) x1 => do
      let xi : List EF := [EF.num x1, EF.sub (EF.num 1) (EF.num x1)]
      let pl ← calc_phil env P T xi o
      let phil := pl.1
      let xinew1 := ewise EF.div (ewise EF.mul yi phiv) phil
      let t1 := npsum xinew1
      let xi2 := sdiv xinew1 t1
      let pl2 ← calc_phil env P T xi2 o
      let phil2 := pl2.1
      let flagl2 := pl2.2.2
      let xinew2 := ewise EF.div (ewise EF.mul yi phiv) phil2
      let t2 := npsum xinew2
      let obj := EF.npabs (EF.sub t1 t2)
      pure (acc ++ [(obj, flagl2, x1)])) []
  let finite := triples.filter (fun t => !t.1.isnan)
  if finite.length = 0 then
    pure [EF.nan, EF.sub (EF.num 1) EF.nan]
  else do
    let cand := finite.filter (fun t =>
      !(EF.eqb t.2.1 (EF.num 0) || EF.eqb t.2.1 (EF.num 3) ||
        EF.eqb t.2.1 (EF.num 4)))
    let pool := if cand.isEmpty then finite else cand
    let absobjs := pool.map (fun t => EF.npabs t.1)
    let mn ← npminE absobjs
    match (idxWhere absobjs (fun x => EF.eqb x mn)).head? with
    | none => throw Err.indexOut
    | some i =>
      let x := (pool.getD i (EF.nan, EF.nan, 0)).2.2
      pure [EF.num x, EF.sub (EF.num 1) (EF.num x)]

/-- Negative-index access l[-k] of a nonempty numpy array. -/
def endv (l : List EF) (k : ℕ) : EF := l.getD (l.length - k) EF.nan

/-- Mutable state of the solve_yi_xiT fixed-point loop.  Option fields model
Python locals that may still be unbound when first read. -/
structure YiSt where
  yi : List EF
  yi_total : List EF
  fcv : Bool
  fts : Bool
  rng : ℕ
  yi_tmp : Option (List EF)
  yinew : Option (List EF)
  phiv : Option (List EF)
  flagv : Option EF
  yi2 : Option (List EF)
  phiv2 : Option (List EF)
  flagv2 : Option EF
  glob : Option (List EF)

/-- The fixed-point iteration of solve_yi_xiT: predict companion mole
numbers from the fugacity ratio, searching for an alternative guess when
the trial produces no vapor or the trivial solution, bisecting when the
iterates bounce between two phase classifications, and stopping when both
the mole-number total and the smallest fraction have converged.  Returns
the final loop counter and state. -/
def solveYiLoop (env : Env) (P : EF) (T : ℚ) (xi phil : List EF)
    (tol : ℚ) (o : RhoOpts) (maxiter : ℕ) :
    ℕ → ℕ → YiSt → Except Err (ℕ × YiSt)
  | z, 0, st => pure (z - 1, st)
  | z, fuel + 1, st => do
    let yi_tmp := sdiv st.yi (npsum st.yi)
    let pv ← calc_phiv env P T yi_tmp o
    let st := { st with
      yi_tmp := some yi_tmp
      phiv := some pv.1
      flagv := some pv.2.2 }
    let branch1 := (pv.1.any EF.isnan || EF.eqb pv.2.2 (EF.num 1)) && st.fcv
    let branch2 := EF.ltb (npsum ((ewise EF.sub xi yi_tmp).map EF.npabs))
      (EF.num (qlit 1 100000)) && st.fts
    let step ←
      if branch1 then do
        let st := { st with fcv := false }
        if yi_tmp.all (fun x => EF.neb x (EF.num 0)) && yi_tmp.length = 2 then do
          let yi2a ← find_new_yi env P T phil xi o
          if yi2a.any EF.isnan then
            pure (Sum.inl { st with
              phiv := some [EF.nan]
              flagv := some (EF.num 3) })
          else do
            let pv2 ← calc_phiv env P T yi2a o
            pure (Sum.inr ({ st with
              phiv := some pv2.1
              flagv := some pv2.2.2 },
              ewise EF.div (ewise EF.mul xi phil) pv2.1))
        else
          pure (Sum.inr (st, st.yi))
      else if !branch1 && branch2 then do
        let st := { st with fts := false }
        let (yi2a, st) ←
          if yi_tmp.all (fun x => EF.neb x (EF.num 0)) && yi_tmp.length = 2 then do
            let r ← find_new_yi env P T phil xi o
            pure (r, st)
          else do
            let raw := (List.range yi_tmp.length).map
              (fun k => EF.num (env.orc.rand (st.rng + k)))
            pure (sdiv raw (npsum raw),
              { st with rng := st.rng + yi_tmp.length })
        if yi2a.any EF.isnan then
          pure (Sum.inl { st with
            phiv := some [EF.nan]
            flagv := some (EF.num 3) })
        else do
          let pv2 ← calc_phiv env P T yi2a o
          pure (Sum.inr ({ st with
            phiv := some pv2.1
            flagv := some pv2.2.2 },
            ewise EF.div (ewise EF.mul xi phil) pv2.1))
      else
        pure (Sum.inr (st, ewise EF.div (ewise EF.mul xi phil) pv.1))
    match step with
    | Sum.inl stBreak => pure (z, stBreak)
    | Sum.inr (st, yinewRaw) => do
      let yinew := zeroNan yinewRaw
      let yi2 := sdiv yinew (npsum yinew)
      let pv2 ← calc_phiv env P T yi2 o
      let st := { st with
        yinew := some yinew
        yi2 := some yi2
        phiv2 := some pv2.1
        flagv2 := some pv2.2.2 }
      let phivCur ← getOpt st.phiv
      let st := if phivCur.any EF.isnan then
          { st with phiv := some [EF.nan] } else st
      let flagvCur ← getOpt st.flagv
      let bounce :=
        if 3 < st.yi_total.length then
          let tmp1 := EF.add
            (EF.npabs (EF.sub (npsum yinew) (endv st.yi_total 2)))
            (EF.npabs (EF.sub (endv st.yi_total 1) (endv st.yi_total 3)))
          EF.ltb tmp1 (EF.npabs (EF.sub (npsum yinew) (endv st.yi_total 1)))
            && EF.neb flagvCur pv2.2.2
        else false
      if bounce then do
        let y0 ← getE yi_tmp 0
        let y20 ← getE yi2 0
        let br ← bracket_bounding_yi env P T phil xi (sort2 y0 y20) 50
          (qlit 1 10000000) o
        let pv3 ← calc_phiv env P T br.1 o
        pure (z, { st with
          yi2 := some br.1
          phiv2 := some pv3.1
          flagv2 := some pv3.2.2
          glob := some br.1 })
      else do
        let conv1 := EF.ltb (EF.npabs (EF.sub (npsum yinew)
          (endv st.yi_total 1))) (EF.num tol)
        let done ←
          if conv1 then do
            let mp ← minPosE yi_tmp
            let ind_tmp := idxWhere yi_tmp (fun x => EF.eqb x mp)
            let sel2 ← selectE yi2 ind_tmp
            let selt ← selectE yi_tmp ind_tmp
            let vals := (sel2.zip selt).map
              (fun p => EF.div (EF.npabs (EF.sub p.1 p.2)) p.2)
            arrTruth (vals.map (fun v => EF.ltb v (EF.num tol)))
          else pure false
        if done then
          pure (z, { st with glob := some yi2 })
        else do
          let st := if z < maxiter - 1 then
              { st with yi_total := st.yi_total ++ [npsum yinew], yi := yinew }
            else st
          solveYiLoop env P T xi phil tol o maxiter (z + 1) fuel st

/-- solve_yi_xiT: normalize the guess, run the fixed-point loop, and handle
the exit: a no-phase break returns a NaN coefficient vector with a NaN
flag; cap exhaustion re-solves the single degree of freedom by bounded
least squares but the function still returns the last fixed-point iterate
(the NaN vector and no-phase flag prepared in that branch are dead stores);
otherwise the converged iterate is returned.  The second component of the
result is the value written to the module-global warm start, when any. -/
def solve_yi_xiT (env : Env) (yi0 xi phil : List EF) (P : EF) (T : ℚ)
    (o : RhoOpts) (maxiter : ℕ) (tol : ℚ) :
    Except Err ((List EF × List EF × EF) × Option (List EF)) := do
  let yi_total := [npsum yi0]
  let yi := sdiv yi0 (npsum yi0)
  let st0 : YiSt :=
    ⟨yi, yi_total, true, true, 0, none, none, none, none, none, none, none,
      none⟩
  let r ← solveYiLoop env P T xi phil tol o maxiter 0 maxiter st0
  let z := r.1
  let st := r.2
  let yi_tmp ← getOpt st.yi_tmp
  let mp ← minPosE yi_tmp
  let ind_tmp := idxWhere yi_tmp (fun x => EF.eqb x mp)
  let flagv ← getOpt st.flagv
  if EF.eqb flagv (EF.num 3) then do
    let yinew ← getOpt st.yinew
    let yi2r := sdiv yinew (npsum yinew)
    pure ((yi2r, List.replicate yi_tmp.length EF.nan, EF.nan), st.glob)
  else if z = maxiter - 1 then do
    let yinew ← getOpt st.yinew
    let yi2r := sdiv yinew (npsum yinew)
    let sel2 ← selectE yi2r ind_tmp
    let selt ← selectE yi_tmp ind_tmp
    let vals := (sel2.zip selt).map
      (fun p => EF.div (EF.npabs (EF.sub p.1 p.2)) p.2)
    let big ← arrTruth (vals.map (fun v => EF.gtb v (EF.num (qlit 1 10))))
    let _yinew2 ← if big then find_new_yi env P T phil xi o else pure yinew
    let y00 ← getE yi2r 0
    let y1 ← env.orc.least_squares
      (fun y => do
        let rr ← obj_yi env [y] P T phil xi o
        pure rr.1) y00 (0, 1)
    let yiR := [y1, EF.sub (EF.num 1) y1]
    let _pv ← calc_phiv env P T yiR o
    let objR ← obj_yi env yiR P T phil xi o
    let _dead := if EF.gtb objR.1 (EF.num tol) then
        (List.replicate yi_tmp.length EF.nan, EF.num 3)
      else ([], EF.num 0)
    let phiv2 ← getOpt st.phiv2
    let flagv2 ← getOpt st.flagv2
    pure ((yi2r, phiv2, flagv2), st.glob)
  else do
    let yi2r ← getOpt st.yi2
    let phiv2 ← getOpt st.phiv2
    let flagv2 ← getOpt st.flagv2
    pure ((yi2r, phiv2, flagv2), st.glob)

/-- Mutable state of the solve_xi_yiT fixed-point loop. -/
structure XiSt where
  xi : List EF
  xi_total : List EF
  xi_tmp : Option (List EF)
  xinew : Option (List EF)
  phil : Option (List EF)
  flagl : Option EF
  glob : Option (List EF)

/-- The fixed-point iteration of solve_xi_yiT: predict companion mole
numbers from the fugacity ratio, searching for an alternative guess when
the trial produces no liquid, and stopping when both the mole-number total
and the smallest fraction have converged. -/
def solveXiLoop (env : Env) (P : EF) (T : ℚ) (yi phiv : List EF)
    (tol : ℚ) (o : RhoOpts) (maxiter : ℕ) :
    ℕ → ℕ → XiSt → Except Err (ℕ × XiSt)
  | z, 0, st => pure (z - 1, st)
  | z, fuel + 1, st => do
    let xi_tmp := sdiv st.xi (npsum st.xi)
    let pl ← calc_phil env P T xi_tmp o
    let st := { st with
      xi_tmp := some xi_tmp
      phil := some pl.1
      flagl := some pl.2.2 }
    let (st, xinewRaw) ←
      if pl.1.any EF.isnan || EF.eqb pl.2.2 (EF.num 0) then do
        let (st, xinewRaw) ←
          if st.xi.all (fun x => EF.neb x (EF.num 0)) then do
            let xinew1 ← find_new_xi env P T phiv yi o
            let pl2 ← calc_phil env P T xinew1 o
            pure ({ st with
                phil := some pl2.1
                flagl := some pl2.2.2 },
              ewise EF.div (ewise EF.mul yi phiv) pl2.1)
          else pure (st, st.xi)
        let philCur ← getOpt st.phil
        let st := if philCur.any EF.isnan then
            { st with phil := some [EF.nan] } else st
        pure (st, xinewRaw)
      else
        pure (st, ewise EF.div (ewise EF.mul yi phiv) pl.1)
    let xinew := zeroNan xinewRaw
    let st := { st with xinew := some xinew }
    let conv1 := EF.ltb (EF.npabs (EF.sub (npsum xinew)
      (endv st.xi_total 1))) (EF.num tol)
    let done ←
      if conv1 then do
        let mp ← minPosE xi_tmp
        let ind_tmp := idxWhere xi_tmp (fun x => EF.eqb x mp)
        let xi2 := sdiv xinew (npsum xinew)
        let sel2 ← selectE xi2 ind_tmp
        let selt ← selectE xi_tmp ind_tmp
        let vals := (sel2.zip selt).map
          (fun p => EF.div (EF.npabs (EF.sub p.1 p.2)) p.2)
        arrTruth (vals.map (fun v => EF.ltb v (EF.num tol)))
      else pure false
    if done then
      pure (z, { st with glob := some xi_tmp })
    else do
      let st := if z < maxiter - 1 then
          { st with xi_total := st.xi_total ++ [npsum xinew], xi := xinew }
        else st
      solveXiLoop env P T yi phiv tol o maxiter (z + 1) fuel st

/-- solve_xi_yiT: normalize the guess, run the fixed-point loop, and handle
the exit: cap exhaustion re-solves the single degree of freedom by bounded
least squares but the function still returns the last loop guess xi_tmp
with its coefficients and flag (the re-solved composition is a dead store);
otherwise the converged guess is returned.  The second component is the
value written to the module-global warm start, when any. -/
def solve_xi_yiT (env : Env) (xi0 yi phiv : List EF) (P : EF) (T : ℚ)
    (o : RhoOpts) (maxiter : ℕ) (tol : ℚ) :
    Except Err ((List EF × List EF × EF) × Option (List EF)) := do
  let xi := sdiv xi0 (npsum xi0)
  let xi_total := [npsum xi]
  let st0 : XiSt := ⟨xi, xi_total, none, none, none, none, none⟩
  let r ← solveXiLoop env P T yi phiv tol o maxiter 0 maxiter st0
  let z := r.1
  let st := r.2
  let xinew0 ← getOpt st.xinew
  let xinewN := sdiv xinew0 (npsum xinew0)
  let mp ← minPosE st.xi
  let ind_tmp := idxWhere st.xi (fun x => EF.eqb x mp)
  let xi_tmp ← getOpt st.xi_tmp
  if z = maxiter - 1 then do
    let xi2 := sdiv xinewN (npsum xinewN)
    let sel2 ← selectE xi2 ind_tmp
    let selt ← selectE xi_tmp ind_tmp
    let vals := (sel2.zip selt).map
      (fun p => EF.div (EF.npabs (EF.sub p.1 p.2)) p.2)
    let big ← arrTruth (vals.map (fun v => EF.gtb v (EF.num (qlit 1 10))))
    let xinew2 ← if big then find_new_xi env P T phiv yi o else pure xinewN
    let x00 ← getE xinew2 0
    let x1 ← env.orc.least_squares
      (fun x => obj_xi env [x] P T phiv yi o) x00 (0, 1)
    let xiR := [x1, EF.sub (EF.num 1) x1]
    let _obj ← obj_xi env xiR P T phiv yi o
    let phil ← getOpt st.phil
    let flagl ← getOpt st.flagl
    pure ((xi_tmp, phil, flagl), st.glob)
  else do
    let phil ← getOpt st.phil
    let flagl ← getOpt st.flagl
    pure ((xi_tmp, phil, flagl), st.glob)

/-- Update of a threaded module-global after an inner call: keep the write
when the callee made one. -/
def updG (g cur : Option (List EF)) : Option (List EF) :=
  match g with
  | some v => some v
  | none => cur

/-- Builtin min over a numpy array iterated pairwise; raises when empty. -/
def pymin (l : List EF) : Except Err EF :=
  match l with
  | [] => throw Err.emptyReduce
  | x :: xs => pure (xs.foldl (fun a b => if EF.ltb b a then b else a) x)

/-- Builtin max over a numpy array iterated pairwise; raises when empty. -/
def pymax (l : List EF) : Except Err EF :=
  match l with
  | [] => throw Err.emptyReduce
  | x :: xs => pure (xs.foldl (fun a b => if EF.gtb b a then b else a) x)

/-- Reorder an array, remove duplicates, and select the matching entries of
the companion array (_clean_plot_data). -/
def insertEF (a : EF) : List EF → List EF
  | [] => [a]
  | b :: bs => if EF.ltb b a then b :: insertEF a bs else a :: b :: bs

/-- Sort by the IEEE less-than (duplicates kept; only reached on finite
data in the modeled call sites). -/
def npsortE (l : List EF) : List EF := l.foldl (fun acc a => insertEF a acc) []

/-- Remove duplicate entries keeping first occurrences. -/
def dedupEF (l : List EF) : List EF :=
  l.foldl (fun acc a => if acc.any (fun b => EF.eqb b a) then acc
    else acc ++ [a]) []

/-- _clean_plot_data: sorted unique x values with the y value of the first
matching index for each. -/
def _clean_plot_data (x_old y_old : List EF) : List EF × List EF :=
  let x_new := npsortE (dedupEF x_old)
  (x_new, x_new.map (fun xv =>
    y_old.getD (x_old.findIdx (fun t => EF.eqb t xv)) EF.nan))

/-- Mutable state of both calc_Prange_xi loops. -/
structure PrxSt where
  Prange0 : EF
  Prange1 : EF
  Obj0 : EF
  Obj1 : EF
  p : EF
  yi_range : List EF
  flag_liqu : Bool
  flag_min : Bool
  Parray : List EF
  ObjArray : List EF
  phiv_min : Option (List EF)
  flagv_min : Option EF
  phiv_max : Option (List EF)
  flagv_max : Option EF
  Pguess : Option EF
  rng : ℕ
  glob : Option (List EF)

/-- First loop of calc_Prange_xi: walk the pressure up or down until the
objective at the minimum pressure is positive with a liquid-like phase,
retrying with a random pressure inside the range when the trial leaves it,
and raising when the trial pressure falls to zero or below. -/
def prangeXiLoop1 (env : Env) (T : ℚ) (xi : List EF) (o : RhoOpts)
    (zi : ZiOpts) (Pmin : EF) : ℕ → ℕ → PrxSt → Except Err (ℕ × PrxSt)
  | z, 0, st => pure (z - 1, st)
  | z, fuel + 1, st => do
    let pl ← calc_phil env st.p T xi o
    if pl.1.any EF.isnan then
      prangeXiLoop1 env T xi o zi Pmin (z + 1) fuel
        { st with Prange0 := EF.add st.Prange0 Pmin }
    else do
      let step ←
        if EF.eqb pl.2.2 (EF.num 1) || EF.eqb pl.2.2 (EF.num 2) then do
          let yr ← solve_yi_xiT env st.yi_range xi pl.1 st.p T o
            zi.maxiter zi.tol
          let st := { st with
            yi_range := yr.1.1
            phiv_min := some yr.1.2.1
            flagv_min := some yr.1.2.2
            glob := updG yr.2 st.glob }
          let obj := EF.sub (npnansum (ewise EF.div
            (ewise EF.mul xi pl.1) yr.1.2.1)) (EF.num 1)
          if yr.1.1.any EF.isnan then
            pure (Sum.inr { st with
              Prange0 := st.p
              Obj0 := obj
              p := EF.div st.p (EF.num 2) })
          else if EF.ltb (npsum ((ewise EF.sub xi yr.1.1).map EF.npabs))
              (EF.num (qlit 1 100000)) then
            pure (Sum.inr { st with
              flag_liqu := true
              Obj1 := obj
              Prange1 := st.p
              phiv_max := some yr.1.2.1
              flagv_max := some yr.1.2.2
              p := EF.mul (EF.num (qlit 3 4)) st.p })
          else if EF.gtb obj (EF.num 0) then
            pure (Sum.inl { st with Prange0 := st.p, Obj0 := obj })
          else if EF.ltb st.Obj0 (EF.num 0) then
            pure (Sum.inr { st with
              Obj1 := obj
              Prange1 := st.p
              phiv_max := some yr.1.2.1
              flagv_max := some yr.1.2.2
              p := EF.div st.p (EF.num 2) })
          else pure (Sum.inr st)
        else
          pure (Sum.inr { st with
            Prange0 := st.p
            p := EF.mul (EF.num 2) st.p })
      match step with
      | Sum.inl stB => pure (z, stB)
      | Sum.inr st => do
        let st := if EF.gtb st.Prange0 st.Prange1 then
            { st with Prange0 := st.Prange1, Obj0 := st.Obj1 } else st
        let st :=
          if (EF.ltb st.p st.Prange0 && EF.neb st.Prange0 st.Prange1) ||
              (st.flag_liqu && EF.gtb st.p st.Prange1) then
            { st with
              p := EF.add (EF.mul (EF.sub st.Prange1 st.Prange0)
                (EF.num (env.orc.rand st.rng))) st.Prange0
              rng := st.rng + 1 }
          else st
        if EF.leb st.p (EF.num 0) then throw Err.valuePnonpos
        else prangeXiLoop1 env T xi o zi Pmin (z + 1) fuel st

/-- Second loop of calc_Prange_xi: expand or bisect the upper pressure until
the objective changes sign, fitting local quadratics once enough bracketed
samples accumulate, and recording that no sign change is reachable when the
objective starts increasing (the flag_min exit). -/
def prangeXiLoop2 (env : Env) (T : ℚ) (xi : List EF) (o : RhoOpts)
    (zi : ZiOpts) : ℕ → ℕ → PrxSt → Except Err (ℕ × PrxSt)
  | z, 0, st => pure (z - 1, st)
  | z, fuel + 1, st => do
    let pl ← calc_phil env st.p T xi o
    if pl.1.any EF.isnan then throw Err.valuePhilNan
    else do
      let yr ← solve_yi_xiT env st.yi_range xi pl.1 st.p T o
        zi.maxiter zi.tol
      let st := { st with
        yi_range := yr.1.1
        phiv_max := some yr.1.2.1
        flagv_max := some yr.1.2.2
        glob := updG yr.2 st.glob }
      let flagv := yr.1.2.2
      let obj := EF.sub (npnansum (ewise EF.div
        (ewise EF.mul xi pl.1) yr.1.2.1)) (EF.num 1)
      if !(EF.eqb flagv (EF.num 0) || EF.eqb flagv (EF.num 2) ||
          EF.eqb flagv (EF.num 4)) || yr.1.1.any EF.isnan then
        prangeXiLoop2 env T xi o zi (z + 1) fuel { st with
          flag_liqu := true
          Prange1 := st.p
          Obj1 := obj
          p := EF.add (EF.div (EF.sub st.p st.Prange0)
            (EF.num 2)) st.Prange0 }
      else if EF.ltb obj (EF.num 0) then do
        let st := if EF.ltb st.Prange1 st.p then
            { st with Prange0 := st.Prange1, Obj0 := st.Obj1 } else st
        let st := { st with Prange1 := st.p, Obj1 := obj }
        let slope := EF.div (EF.sub st.Obj1 st.Obj0)
          (EF.sub st.Prange1 st.Prange0)
        let intercept := EF.sub st.Obj1 (EF.mul slope st.Prange1)
        pure (z, { st with Pguess := some (EF.div (EF.neg intercept) slope) })
      else do
        let st := { st with
          Parray := st.Parray ++ [st.p]
          ObjArray := st.ObjArray ++ [obj] }
        if st.flag_liqu then
          prangeXiLoop2 env T xi o zi (z + 1) fuel { st with
            Prange0 := st.p
            Obj0 := obj
            p := EF.add (EF.div (EF.sub st.Prange1 st.p) (EF.num 2)) st.p }
        else if (0 < z && EF.gtb (endv st.ObjArray 1)
            (EF.mul (EF.num (qlit 11 10)) (endv st.ObjArray 2))) ||
            st.flag_min then do
          let st := if !st.flag_min then
              { st with
                flag_min := true
                Prange0 := st.Prange1
                Obj0 := st.Obj1 }
            else st
          if (st.Parray.dropLast.map (fun q =>
              EF.ltb (EF.npabs (EF.sub (endv st.Parray 1) q))
                (EF.num (qlit 1 100)))).any id then
            pure (z, st)
          else do
            let st ←
              if EF.gtb obj st.Obj0 then
                pure { st with
                  Prange1 := st.p
                  Obj1 := obj
                  p := EF.add (EF.div (EF.sub st.p st.Prange0) (EF.num 2))
                    st.Prange0 }
              else do
                let ind := (List.range st.Parray.length).filter (fun i =>
                  EF.leb st.Prange0 (st.Parray.getD i EF.nan) &&
                  EF.leb (st.Parray.getD i EF.nan) st.Prange1)
                if 3 < ind.length then do
                  let sx ← selectE st.Parray ind
                  let sy ← selectE st.ObjArray ind
                  let cd := _clean_plot_data sx sy
                  let xroot := env.orc.quadroots cd.1 cd.2
                  let xroot2 := if xroot.isEmpty then
                      env.orc.cubderroots cd.1 cd.2 else xroot
                  if xroot2.isEmpty then
                    pure { st with
                      p := EF.add (EF.mul (EF.sub st.Prange1 st.Prange0)
                        (EF.num (env.orc.rand st.rng))) st.Prange0
                      rng := st.rng + 1 }
                  else pure st
                else
                  pure { st with
                    p := EF.add (EF.mul (EF.sub st.Prange1 st.Prange0)
                      (EF.num (env.orc.rand st.rng))) st.Prange0
                    rng := st.rng + 1 }
            let st := if EF.ltb st.p st.Prange0 then
                { st with
                  p := EF.add (EF.mul (EF.sub st.Prange1 st.Prange0)
                    (EF.num (env.orc.rand st.rng))) st.Prange0
                  rng := st.rng + 1 }
              else st
            prangeXiLoop2 env T xi o zi (z + 1) fuel st
        else do
          let st := if EF.ltb st.Prange1 st.p then
              { st with Prange0 := st.Prange1, Obj0 := st.Obj1 } else st
          let st := { st with Prange1 := st.p, Obj1 := obj }
          let slope := EF.div (EF.sub st.Obj1 st.Obj0)
            (EF.sub st.Prange1 st.Prange0)
          let intercept := EF.sub st.Obj1 (EF.mul slope st.Prange1)
          prangeXiLoop2 env T xi o zi (z + 1) fuel { st with
            p := npnanmax [EF.div (EF.neg intercept) slope,
              EF.mul (EF.num 2) st.Prange1] }

/-- Setup of calc_Prange_xi: the liquid curve fixes the initial pressure
range from the local maximum of the spline (1 bar with no extrema). -/
def prangeXiInit (env : Env) (T : ℚ) (xi yi : List EF) (o : RhoOpts)
    (Pmin : EF) (glob : Option (List EF)) : Except Err PrxSt := do
  let cur ← PvsRho env T xi o
  let sp := PvsV_spline env cur.1 cur.2
  let extrema := sp.2
  let Pmax ←
    if extrema.isEmpty then pure (EF.num 100000)
    else pymax (extrema.map (env.orc.speval cur.1 cur.2))
  pure ⟨Pmin, Pmax, EF.num 0, EF.num 0, Pmin, yi, false, false,
    [], [], none, none, none, none, none, 0, glob⟩

/-- calc_Prange_xi: establish a pressure range over which the bubble-point
objective changes sign.  The first loop raises a ValueError when its
200-iteration cap is reached; the second loop instead reports failure by
returning NaN Prange and Pguess.  On success the warm-start global is set
to the final vapor composition. -/
def calc_Prange_xi (env : Env) (T : ℚ) (xi yi : List EF) (o : RhoOpts)
    (zi : ZiOpts) (Pmin : EF) (glob : Option (List EF)) :
    Except Err ((List EF × EF) × Option (List EF)) := do
  let st0 ← prangeXiInit env T xi yi o Pmin glob
  let r1 ← prangeXiLoop1 env T xi o zi Pmin 0 200 st0
  if r1.1 = 200 - 1 then throw Err.valuePminIter
  else do
    let st := r1.2
    let st := if EF.leb st.Prange1 st.Prange0 then
        { st with Prange1 := EF.mul st.Prange0 (EF.num (qlit 11 10)) }
      else st
    let st := { st with
      flag_min := false
      p := st.Prange1
      Parray := [st.Prange1]
      ObjArray := [st.Obj1] }
    let r2 ← prangeXiLoop2 env T xi o zi 0 200 st
    let z2 := r2.1
    let stf := r2.2
    if z2 = 200 - 1 || stf.flag_min then
      pure (([EF.nan, EF.nan], EF.nan), stf.glob)
    else do
      let pg ← getOpt stf.Pguess
      pure (([stf.Prange0, stf.Prange1], pg), some stf.yi_range)

/-- Mutable state of the calc_Prange_yi loop. -/
structure PrySt where
  Prange0 : EF
  Prange1 : EF
  Obj0 : EF
  Obj1 : EF
  p : EF
  xi_range : List EF
  flag_sol : Bool
  flag_vapor : Bool
  Pguess : Option EF
  glob : Option (List EF)
deriving DecidableEq, Repr

/-- The loop of calc_Prange_yi: check that the minimum pressure produces a
vapor, then expand or bisect the upper pressure until the dew-point
objective becomes positive. -/
def prangeYiLoop (env : Env) (T : ℚ) (yi : List EF) (o : RhoOpts)
    (zi : ZiOpts) : ℕ → ℕ → PrySt → Except Err (ℕ × PrySt)
  | i, 0, st => pure (i - 1, st)
  | i, fuel + 1, st => do
    let pv ← calc_phiv env st.p T yi o
    let xr ← solve_xi_yiT env st.xi_range yi pv.1 st.p T o
      zi.maxiter zi.tol
    let st := { st with
      xi_range := xr.1.1
      glob := updG xr.2 st.glob }
    let flagv := pv.2.2
    let obj := EF.sub (npnansum (ewise EF.div
      (ewise EF.mul yi pv.1) xr.1.2.1)) (EF.num 1)
    let okflag := EF.eqb flagv (EF.num 0) || EF.eqb flagv (EF.num 2) ||
      EF.eqb flagv (EF.num 4)
    if i = 0 then
      if !okflag then
        pure (i, { st with
          Prange0 := EF.nan
          Prange1 := EF.nan
          Pguess := some EF.nan })
      else
        prangeYiLoop env T yi o zi (i + 1) fuel
          { st with Obj0 := obj, p := st.Prange1 }
    else do
      let st := if i = 1 then { st with Obj1 := obj } else st
      if !okflag then
        prangeYiLoop env T yi o zi (i + 1) fuel { st with
          flag_vapor := true
          Prange1 := st.p
          Obj1 := st.p
          p := EF.add (EF.div (EF.sub st.p st.Prange0) (EF.num 2))
            st.Prange0 }
      else if EF.gtb obj (EF.num 0) then do
        let st := if EF.ltb st.Prange1 st.p then
            { st with Prange0 := st.Prange1, Obj0 := st.Obj1 } else st
        let st := { st with Prange1 := st.p, Obj1 := obj }
        let slope := EF.div (EF.sub st.Obj1 st.Obj0)
          (EF.sub st.Prange1 st.Prange0)
        let intercept := EF.sub st.Obj1 (EF.mul slope st.Prange1)
        pure (i, { st with
          Pguess := some (EF.div (EF.neg intercept) slope)
          flag_sol := true })
      else if st.flag_vapor then
        prangeYiLoop env T yi o zi (i + 1) fuel { st with
          Prange0 := st.p
          Obj0 := obj
          p := EF.add (EF.div (EF.sub st.Prange1 st.p) (EF.num 2)) st.p }
      else do
        let st := if EF.ltb st.Prange1 st.p then
            { st with Prange0 := st.Prange1, Obj0 := st.Obj1 } else st
        let st := { st with Prange1 := st.p, Obj1 := obj }
        let slope := EF.div (EF.sub st.Obj1 st.Obj0)
          (EF.sub st.Prange1 st.Prange0)
        let intercept := EF.sub st.Obj1 (EF.mul slope st.Prange1)
        prangeYiLoop env T yi o zi (i + 1) fuel { st with
          p := npnanmax [EF.div (EF.neg intercept) slope,
            EF.mul (EF.num 2) st.Prange1] }

/-- Setup of calc_Prange_yi: the pressure range comes from the spline
evaluated at the curve's extrema, or from the (sign-corrected) minimum
sampled pressure and ten times it. -/
def prangeYiInit (env : Env) (T : ℚ) (xi yi : List EF) (o : RhoOpts)
    (glob : Option (List EF)) : Except Err PrySt := do
  let cur ← PvsRho env T yi o
  let sp := PvsV_spline env cur.1 cur.2
  let extrema := sp.2
  let pr ←
    if 1 < extrema.length then do
      let vals := extrema.map (env.orc.speval cur.1 cur.2)
      let mn ← pymin vals
      let mx ← pymax vals
      pure (mn, mx)
    else do
      let mn ← pymin cur.2
      let mn := if EF.ltb mn (EF.num 0) then EF.num 100 else mn
      pure (mn, EF.mul (EF.num 10) mn)
  pure ⟨pr.1, pr.2, EF.num 0, EF.num 0, pr.1, xi, false, false, none, glob⟩

/-- Exit of calc_Prange_yi: cap exhaustion reports the NaN range and guess
without raising; a sign-change exit reports the range with the interpolated
guess; the vapor-failure exit also writes the warm-start global. -/
def prangeYiPost (r : ℕ × PrySt) :
    Except Err ((List EF × EF) × Option (List EF)) :=
  if r.1 = 200 - 1 then
    pure (([EF.nan, EF.nan], EF.nan), r.2.glob)
  else if r.2.flag_sol then do
    let pg ← getOpt r.2.Pguess
    pure (([r.2.Prange0, r.2.Prange1], pg), r.2.glob)
  else do
    let pg ← getOpt r.2.Pguess
    pure (([r.2.Prange0, r.2.Prange1], pg), some r.2.xi_range)

/-- calc_Prange_yi: establish a pressure range over which the dew-point
objective changes sign.  Exhausting the 200-iteration cap only logs an
error and returns NaN Prange and Pguess; no exception is raised.  The
warm-start global is updated with the final liquid composition only in the
no-solution branch (the dead-store branch of the source). -/
def calc_Prange_yi (env : Env) (T : ℚ) (xi yi : List EF) (o : RhoOpts)
    (zi : ZiOpts) (glob : Option (List EF)) :
    Except Err ((List EF × EF) × Option (List EF)) := do
  let st0 ← prangeYiInit env T xi yi o glob
  let r ← prangeYiLoop env T yi o zi 0 200 st0
  prangeYiPost r

/-- solve_P_xiT: bubble-point objective at a trial pressure, evaluating the
inner vapor solver from the warm-start global and refreshing it. -/
def solve_P_xiT (env : Env) (P : EF) (xi : List EF) (T : ℚ) (o : RhoOpts)
    (zi : ZiOpts) (glob : Option (List EF)) :
    Except Err (EF × Option (List EF)) := do
  if EF.ltb P (EF.num 0) then pure (EF.num 10, glob)
  else do
    let pl ← calc_phil env P T xi o
    let yg ← getOpt glob
    let yr ← solve_yi_xiT env yg xi pl.1 P T o zi.maxiter zi.tol
    let glob2 := some (sdiv yr.1.1 (npsum yr.1.1))
    let yg2 ← getOpt glob2
    let pv ← calc_phiv env P T yg2 o
    let _Pv_test := env.eos.pressure pv.2.1 T yg2
    pure (EF.sub (npnansum (ewise EF.div (ewise EF.mul xi pl.1) pv.1))
      (EF.num 1), glob2)

/-- solve_P_yiT: dew-point objective at a trial pressure, evaluating the
inner liquid solver from the warm-start global and refreshing it. -/
def solve_P_yiT (env : Env) (P : EF) (yi : List EF) (T : ℚ) (o : RhoOpts)
    (zi : ZiOpts) (glob : Option (List EF)) :
    Except Err (EF × Option (List EF)) := do
  if EF.ltb P (EF.num 0) then pure (EF.num 10, glob)
  else do
    let pv ← calc_phiv env P T yi o
    let xg ← getOpt glob
    let xr ← solve_xi_yiT env xg yi pv.1 P T o zi.maxiter zi.tol
    let glob2 := some (sdiv xr.1.1 (npsum xr.1.1))
    let xg2 ← getOpt glob2
    let pl ← calc_phil env P T xg2 o
    let _Pv_test := env.eos.pressure pl.2.1 T xg2
    pure (EF.sub (npnansum (ewise EF.div (ewise EF.mul yi pv.1) pl.1))
      (EF.num 1), glob2)

/-- The saturation-pressure seeding loop shared by both phase entry points:
for each component, compute the pure-component saturation pressure and fall
back to the setPsat table when it is NaN.  The strict flag raises on a NaN
fallback (calc_yT_phase); without it the NaN is kept (calc_xT_phase). -/
def seedPsat (env : Env) (T : ℚ) (n : ℕ) (o : RhoOpts) (strict : Bool) :
    Except Err (List EF) := do
  (List.range n).foldlM (fun acc i => do
    let unit := (List.range n).map (fun j =>
      if j = i then EF.num 1 else EF.num 0)
    let ps ← calc_Psat env T unit o
    let pi ←
      if ps.1.isnan then do
        let r ← setPsat i env.eos
        if r.1.isnan then
          if strict then throw (Err.valueCritical r.2) else pure r.1
        else pure r.1
      else pure ps.1
    pure (acc ++ [pi])) []

/-- A phase calculation's prelude: the seeded saturation pressures, the
initial pressure, the warm-start global, and the companion composition. -/
structure PhasePre where
  Psat : List EF
  P : EF
  glob : Option (List EF)
  comp : List EF
deriving Repr, DecidableEq

/-- Prelude of calc_yT_phase: seed saturation pressures (raising when a
component is beyond its critical point with no setPsat exception), estimate
the initial pressure by Raoult's law and seed the liquid composition into
the warm-start global. -/
def yTprelude (env : Env) (yi : List EF) (T : ℚ) (o : RhoOpts)
    (Pguess : EF) (glob : Option (List EF)) : Except Err PhasePre := do
  let Psat ← seedPsat env T yi.length o true
  let P := if EF.ltb Pguess (EF.num 0) then
      EF.div (EF.num 1) (npsum (ewise EF.div yi Psat))
    else Pguess
  let glob ←
    if glob.isNone || (glob.getD []).any EF.isnan then do
      let xg := (ewise EF.div yi Psat).map (fun r => EF.mul P r)
      pure (some (sdiv xg (npsum xg)))
    else pure glob
  let xi ← getOpt glob
  pure ⟨Psat, P, glob, xi⟩

/-- Tail of calc_yT_phase after bracketing: the Prange and Pguess returned
by calc_Prange_yi are handed to the root solver without any check, then the
flags and the final dew-point objective are computed at the solved P. -/
def yTfinish (env : Env) (yi : List EF) (T : ℚ) (o : RhoOpts) (zi : ZiOpts)
    (xi : List EF) (pr : (List EF × EF) × Option (List EF)) :
    Except Err ((EF × List EF × EF × EF × EF) × Option (List EF)) := do
  let Prange := pr.1.1
  let rootR ← env.orc.solve_rootP
    (fun p g => solve_P_yiT env p yi T o zi g)
    pr.1.2 (Prange.getD 0 EF.nan, Prange.getD 1 EF.nan) pr.2
  let P2 := rootR.1
  let glob3 := rootR.2
  let pv ← calc_phiv env P2 T yi o
  let pl ← calc_phil env P2 T xi o
  let zi2 : ZiOpts := if zi.tolGiven && decide (qlit 1 10000000000 < zi.tol)
    then ⟨zi.maxiter, qlit 1 10000000000, zi.tolGiven⟩ else zi
  let objr ← solve_P_yiT env P2 yi T o zi2 glob3
  pure ((P2, xi, pl.2.2, pv.2.2, objr.1), objr.2)

/-- calc_yT_phase: seed saturation pressures, estimate the initial pressure
and liquid composition, bracket the pressure with calc_Prange_yi, and run
the root solver on the dew-point objective.  The NaN Prange of a failed
bracketing is passed to the root solver unchecked. -/
def calc_yT_phase (env : Env) (yi : List EF) (T : ℚ) (o : RhoOpts)
    (zi : ZiOpts) (Pguess : EF) (glob : Option (List EF)) :
    Except Err ((EF × List EF × EF × EF × EF) × Option (List EF)) := do
  let pre ← yTprelude env yi T o Pguess glob
  let pr ← calc_Prange_yi env T pre.comp yi o zi pre.glob
  yTfinish env yi T o zi pre.comp pr

/-- Prelude of calc_xT_phase: seed saturation pressures (a NaN fallback is
only logged), estimate the initial pressure by Raoult's law and seed the
vapor composition into the warm-start global. -/
def xTprelude (env : Env) (xi : List EF) (T : ℚ) (o : RhoOpts)
    (Pguess : EF) (glob : Option (List EF)) : Except Err PhasePre := do
  let Psat ← seedPsat env T xi.length o false
  let P := if EF.ltb Pguess (EF.num 0) then
      EF.div (EF.num 1) (npsum (ewise EF.div xi Psat))
    else Pguess
  let glob ←
    if glob.isNone || (glob.getD []).any EF.isnan then do
      let yg := (ewise EF.mul xi Psat).map (fun r => EF.div r P)
      pure (some (sdiv yg (npnansum yg)))
    else pure glob
  let yi ← getOpt glob
  pure ⟨Psat, P, glob, yi⟩

/-- calc_xT_phase: seed saturation pressures, estimate the initial pressure
and vapor composition, bracket the pressure with calc_Prange_xi, raise when
the returned range is NaN, and run the root solver on the bubble-point
objective.  Returns the warm-start global as the vapor composition. -/
def calc_xT_phase (env : Env) (xi : List EF) (T : ℚ) (o : RhoOpts)
    (zi : ZiOpts) (Pguess : EF) (glob : Option (List EF)) :
    Except Err ((EF × List EF × EF × EF × EF) × Option (List EF)) := do
  let pre ← xTprelude env xi T o Pguess glob
  let pr ← calc_Prange_xi env T xi pre.comp o zi (EF.num 10000) pre.glob
  if pr.1.1.any EF.isnan then throw Err.valueNoPrange
  else do
    let rootR ← env.orc.solve_rootP
      (fun p g => solve_P_xiT env p xi T o zi g)
      pr.1.2 (pr.1.1.getD 0 EF.nan, pr.1.1.getD 1 EF.nan) pr.2
    let P2 := rootR.1
    let glob3 := rootR.2
    let pl ← calc_phil env P2 T xi o
    let pv ← calc_phiv env P2 T pre.comp o
    let zi2 : ZiOpts := if zi.tolGiven && decide (qlit 1 10000000000 < zi.tol)
      then ⟨zi.maxiter, qlit 1 10000000000, zi.tolGiven⟩ else zi
    let objr ← solve_P_xiT env P2 xi T o zi2 glob3
    let yg ← getOpt objr.2
    pure ((P2, yg, pv.2.2, pl.2.2, objr.1), objr.2)

/-! Concrete environments exercised by the evaluation theorems below.  The
grid options sample the four densities 1/2, 3/2, 5/2, 7/2 of the constant
maximum density 4, so the specific-volume list is 2/7, 2/5, 2/3, 2. -/

/-- Grid options of the test environments: minrhofrac 1/8, increment 1 and a
vspacemax large enough that no re-sampling occurs. -/
def optsTest : RhoOpts := ⟨qlit 1 8, qlit 1 1, qlit 1000 1, none⟩

/-- Oracle set with constant spline roots and extrema, a pointwise spline
evaluator, a choosable minimize_scalar answer, identity brentq and
least-squares answers, and a choosable root-solver answer. -/
def mkOrc (roots extrema : List EF) (pev : EF → EF)
    (msc : EF × EF → Except Err EF) (sr : EF → EF) : NumOracles :=
  ⟨fun _ _ => roots,
   fun _ _ => extrema,
   fun _ _ x => pev x,
   fun _ _ _ _ => EF.num 0,
   fun _ b => msc b,
   fun _ _ _ => none,
   fun _ a _ => a,
   fun _ x0 _ => .ok x0,
   fun _ _ => (EF.num 0, EF.num 0),
   fun _ _ => (EF.num 0, EF.num 0),
   fun _ _ => [],
   fun _ _ => [],
   fun _ => 0,
   fun _ x0 _ g => .ok (sr x0, g)⟩

/-- Two-bead EOS with identity stoichiometry and constant maximum density 4;
pressure and fugacity coefficients are the given closed forms. -/
def mkEOS (press : EF → ℚ → List EF → EF)
    (fug : EF → EF → List EF → ℚ → List EF) : EOS :=
  ⟨press, fun _ _ => 4, fug, ["CO2", "H2O"], [[1, 0], [0, 1]]⟩

/-- Environment whose shifted curve has three spline roots 1, 2, 4 and a
negative sampled branch, so the classifiers keep their root estimates. -/
def envVap : Env :=
  ⟨mkEOS (fun _ _ _ => EF.num 0) (fun _ _ _ _ => [EF.num 9, EF.num 9]),
   mkOrc [EF.num 1, EF.num 2, EF.num 4] [EF.num 1, EF.num 3]
     (fun _ => EF.num 0) (fun _ => .ok (EF.num 12)) id⟩

/-- Like envVap but with a fourth spline root 8. -/
def env4r : Env :=
  ⟨mkEOS (fun _ _ _ => EF.num 0) (fun _ _ _ _ => [EF.num 9, EF.num 9]),
   mkOrc [EF.num 1, EF.num 2, EF.num 4, EF.num 8] [EF.num 1, EF.num 3]
     (fun _ => EF.num 0) (fun _ => .ok (EF.num 12)) id⟩

/-- Environment with a NaN pressure surface, driving every classification to
the no-stable-phase flag. -/
def envFlag3 : Env :=
  ⟨mkEOS (fun _ _ _ => EF.nan) (fun _ _ _ _ => [EF.num 9]),
   mkOrc [] [] (fun _ => EF.num 0) (fun _ => .ok (EF.num 0)) id⟩

/-- Environment whose curve has a single extremum, so calc_Psat reports the
supercritical no-solution result. -/
def envC6 : Env :=
  ⟨mkEOS (fun _ _ _ => EF.num 0) (fun _ _ _ _ => [EF.num 9, EF.num 9]),
   mkOrc [EF.num 1, EF.num 2, EF.num 4] [EF.num 1]
     (fun _ => EF.num 0) (fun _ => .ok (EF.num 0)) id⟩

/-- Fugacity coefficients that flip between two constant vectors with the
first vapor fraction, producing a two-cycle of the solve_yi_xiT iteration. -/
def fugC3 : EF → EF → List EF → ℚ → List EF := fun _ _ yi _ =>
  if EF.ltb (yi.getD 0 EF.nan) (EF.num (qlit 2 5)) then [EF.num 1, EF.num 3]
  else [EF.num 2, EF.num 1]

/-- Environment on which solve_yi_xiT bounces between two compositions until
its iteration cap without the bouncing detector firing (the phase flag never
changes), exercising the cap-exhaustion exit. -/
def envC3 : Env :=
  ⟨mkEOS (fun _ _ _ => EF.num 0) fugC3,
   mkOrc [EF.num 1, EF.num 2, EF.num 4] [EF.num 1, EF.num 3]
     (fun _ => EF.num 0) (fun _ => .ok (EF.num 0)) id⟩

/-- Grid options of the bracketing environments: two densities 1/2 and 3/2
from the explicit maximum density 2. -/
def optsTest2 : RhoOpts := ⟨qlit 1 4, qlit 1 1, qlit 1000 1, some 2⟩

/-- Pressure surface of the bracketing environments: decreasing
pure-component curves with distinct maxima for the two unit compositions,
and the zero surface for mixtures. -/
def pressC4 : EF → ℚ → List EF → EF := fun rho _ comp =>
  if comp = [EF.num 1, EF.num 0] then
    (if rho = EF.num (qlit 1 2) then EF.num 20 else EF.num 0)
  else if comp = [EF.num 0, EF.num 1] then
    (if rho = EF.num (qlit 1 2) then EF.num 18 else EF.num 0)
  else EF.num 0

/-- Fugacity coefficients of the dew-point environment: the liquid root
(density 1) gets unit coefficients, every other density the vapor pair
2/3, 4/3.  The dew-point objective is the constant -1/6, so no sign change
is ever found. -/
def fugC4 : EF → EF → List EF → ℚ → List EF := fun _ rho _ _ =>
  if rho = EF.num 1 then [EF.num 1, EF.num 1]
  else [EF.num (qlit 2 3), EF.num (qlit 4 3)]

/-- Fugacity coefficients of the bubble-point environment: unit liquid
coefficients, and a vapor pair that depends on the pressure so that the
bubble-point objective rises from 5/16 at 11000 to 5/8 elsewhere, driving
the second bracketing loop into its no-minimum exit. -/
def fugC4b : EF → EF → List EF → ℚ → List EF := fun P rho _ _ =>
  if rho = EF.num 1 then [EF.num 1, EF.num 1]
  else if P = EF.num 11000 then [EF.num (qlit 2 3), EF.num (qlit 4 3)]
  else [EF.num (qlit 1 2), EF.num 2]

/-- Saturation-pressure answers of the equal-area minimization, keyed on the
upper search bound of the two pure-component curves. -/
def mscC4 : EF × EF → Except Err EF := fun b =>
  if b.2 = EF.num 20 then .ok (EF.num 12) else .ok (EF.num 9)

/-- Spline evaluation at the two extrema 1 and 3 of the mixture curve. -/
def spevalC4 : EF → EF := fun x =>
  if x = EF.num 1 then EF.num 3 else EF.num 15

/-- Bracketing environment for the bubble-point direction: calc_Prange_xi's
second loop sees a rising objective, records that no sign change is
reachable (its flag_min exit) and reports the NaN range. -/
def envC4x : Env :=
  ⟨mkEOS pressC4 fugC4b,
   mkOrc [EF.num 1, EF.num 2, EF.num 4] [EF.num 1, EF.num 3]
     spevalC4 mscC4 id⟩

/-- Bracketing environment for the dew-point direction: calc_Prange_yi runs
its trial pressure to infinity 200 times without a sign change, and the root
solver oracle then answers 7 on the NaN bracket it is handed. -/
def envC4y : Env :=
  ⟨mkEOS pressC4 fugC4,
   mkOrc [EF.num 1, EF.num 2, EF.num 4] [EF.num 1, EF.num 3]
     spevalC4 mscC4 (fun _ => EF.num 7)⟩

/-- The vapor composition of the dew-point run. -/
def Y4 : List EF := [EF.num (qlit 3 4), EF.num (qlit 1 4)]

/-- The seeded liquid composition of the dew-point run. -/
def X4 : List EF := [EF.num (qlit 9 13), EF.num (qlit 4 13)]

/-- The converged liquid composition of the dew-point run. -/
def XF : List EF := [EF.num (qlit 3 5), EF.num (qlit 2 5)]

/-- Initial bracketing state of the dew-point run: range 3 to 15 from the
spline extrema. -/
def st0Y : PrySt := ⟨EF.num 3, EF.num 15, EF.num 0, EF.num 0, EF.num 3,
  X4, false, false, none, some X4⟩

/-- Bracketing state after the first iteration of the dew-point run. -/
def stAY : PrySt := ⟨EF.num 3, EF.num 15, EF.num (qlit (-1) 6), EF.num 0,
  EF.num 15, XF, false, false, none, some XF⟩

/-- Bracketing state after the second iteration of the dew-point run: the
interpolated trial pressure has escaped to infinity. -/
def stBY : PrySt := ⟨EF.num 3, EF.num 15, EF.num (qlit (-1) 6),
  EF.num (qlit (-1) 6), EF.pinf, XF, false, false, none, some XF⟩

/-- Fixed point of the dew-point bracketing loop: with the trial pressure at
infinity and a constant negative objective the state no longer changes, so
the loop spins until its cap. -/
def stFixY : PrySt := ⟨EF.num 15, EF.pinf, EF.num (qlit (-1) 6),
  EF.num (qlit (-1) 6), EF.pinf, XF, false, false, none, some XF⟩

theorem qadd_eq (a b : ℚ) : qadd a b = a + b := by
  have ha : (a.den : ℚ) ≠ 0 := by exact_mod_cast a.den_nz
  have hb : (b.den : ℚ) ≠ 0 := by exact_mod_cast b.den_nz
  rw [qadd, Rat.divInt_eq_div]
  push_cast
  rw [div_eq_iff (mul_ne_zero ha hb), ← Rat.mul_den_eq_num a,
    ← Rat.mul_den_eq_num b]
  ring

theorem qmul_eq (a b : ℚ) : qmul a b = a * b := by
  have ha : (a.den : ℚ) ≠ 0 := by exact_mod_cast a.den_nz
  have hb : (b.den : ℚ) ≠ 0 := by exact_mod_cast b.den_nz
  rw [qmul, Rat.divInt_eq_div]
  push_cast
  rw [div_eq_iff (mul_ne_zero ha hb), ← Rat.mul_den_eq_num a,
    ← Rat.mul_den_eq_num b]
  ring

theorem qdiv_eq (a b : ℚ) : qdiv a b = a / b := by
  rcases eq_or_ne b 0 with hb | hb
  · subst hb
    simp [qdiv, Rat.divInt_eq_div]
  · have hbn : (b.num : ℚ) ≠ 0 := by
      exact_mod_cast Rat.num_ne_zero.mpr hb
    have had : (a.den : ℚ) ≠ 0 := by exact_mod_cast a.den_nz
    have hbd : (b.den : ℚ) ≠ 0 := by exact_mod_cast b.den_nz
    rw [qdiv, Rat.divInt_eq_div]
    push_cast
    rw [div_eq_div_iff (mul_ne_zero had hbn) hb, ← Rat.mul_den_eq_num a,
      ← Rat.mul_den_eq_num b]
    ring

theorem qinv_eq (a : ℚ) : qinv a = a⁻¹ := by
  rcases eq_or_ne a 0 with ha | ha
  · subst ha
    simp [qinv, Rat.divInt_eq_div]
  · have han : (a.num : ℚ) ≠ 0 := by
      exact_mod_cast Rat.num_ne_zero.mpr ha
    have had : (a.den : ℚ) ≠ 0 := by exact_mod_cast a.den_nz
    rw [qinv, Rat.divInt_eq_div, inv_eq_one_div,
      div_eq_div_iff han ha, ← Rat.mul_den_eq_num a]
    push_cast
    ring

theorem qsub_eq (a b : ℚ) : qsub a b = a - b := by
  rw [qsub, qadd_eq]
  ring

theorem qabs_eq (a : ℚ) : qabs a = |a| := by
  rw [qabs]
  rcases lt_or_le a 0 with h | h
  · rw [if_pos h, abs_of_neg h]
  · rw [if_neg (not_lt.mpr h), abs_of_nonneg h]

/-- A finite nonzero scalar is exactly a nonzero rational. -/
theorem EF.isNonzeroNum_iff {x : EF} :
    x.isNonzeroNum = true ↔ ∃ a : ℚ, x = EF.num a ∧ a ≠ 0 := by
  cases x <;> simp [EF.isNonzeroNum]

/-- C1: for composition and fugacity-coefficient vectors of one length whose
entries are all finite and nonzero, the K-value round trip recovers the
input exactly: calc_xi (calc_yi xi phil phiv) phiv phil = xi, entrywise
xi i times phil i over phiv i, times phiv i over phil i, returns xi i. -/
theorem calc_xi_calc_yi_roundtrip (xi phil phiv : List EF)
    (hl : phil.length = xi.length) (hv : phiv.length = xi.length)
    (hx : xi.all EF.isNonzeroNum = true)
    (hpl : phil.all EF.isNonzeroNum = true)
    (hpv : phiv.all EF.isNonzeroNum = true) :
    calc_xi (calc_yi xi phil phiv) phiv phil = xi := by
  have hylen : (calc_yi xi phil phiv).length = xi.length := by
    simp [calc_yi]
  apply List.ext_getElem
  · simp [calc_xi, calc_yi]
  · intro i h1 h2
    have hix : i < xi.length := h2
    have hiy : i < (calc_yi xi phil phiv).length := by omega
    have hipl : i < phil.length := by omega
    have hipv : i < phiv.length := by omega
    obtain ⟨a, ha, ha0⟩ := EF.isNonzeroNum_iff.mp
      (List.all_eq_true.mp hx _ (List.getElem_mem hix))
    obtain ⟨b, hb, hb0⟩ := EF.isNonzeroNum_iff.mp
      (List.all_eq_true.mp hpl _ (List.getElem_mem hipl))
    obtain ⟨c, hc, hc0⟩ := EF.isNonzeroNum_iff.mp
      (List.all_eq_true.mp hpv _ (List.getElem_mem hipv))
    have hyi : (calc_yi xi phil phiv)[i] = EF.num (a * b / c) := by
      simp only [calc_yi, List.getElem_map, List.getElem_range,
        List.getD_eq_getElem?_getD, List.getElem?_eq_getElem hix,
        List.getElem?_eq_getElem hipl, List.getElem?_eq_getElem hipv,
        Option.getD_some, ha, hb, hc]
      simp [EF.neb, EF.eqb, EF.mul, EF.div, qmul_eq, qdiv_eq, ha0, hc0]
    have hyne : a * b / c ≠ 0 := div_ne_zero (mul_ne_zero ha0 hb0) hc0
    calc (calc_xi (calc_yi xi phil phiv) phiv phil)[i]
        = EF.num (a * b / c * c / b) := by
          simp only [calc_xi, List.getElem_map, List.getElem_range,
            List.getD_eq_getElem?_getD, List.getElem?_eq_getElem hiy,
            List.getElem?_eq_getElem hipl, List.getElem?_eq_getElem hipv,
            Option.getD_some, hyi, hb, hc]
          simp [EF.neb, EF.eqb, EF.mul, EF.div, qmul_eq, qdiv_eq, hyne, hb0]
      _ = xi[i] := by
          rw [ha]
          congr 1
          field_simp

/-- Witness for C1 at xi = [1/2, 1/2], phil = [2, 3], phiv = [5, 7]. -/
theorem calc_xi_calc_yi_roundtrip_witness :
    calc_xi (calc_yi [EF.num (qlit 1 2), EF.num (qlit 1 2)]
        [EF.num (qlit 2 1), EF.num (qlit 3 1)]
        [EF.num (qlit 5 1), EF.num (qlit 7 1)])
      [EF.num (qlit 5 1), EF.num (qlit 7 1)]
      [EF.num (qlit 2 1), EF.num (qlit 3 1)]
      = [EF.num (qlit 1 2), EF.num (qlit 1 2)] :=
  calc_xi_calc_yi_roundtrip _ _ _ (by decide) (by decide) (by decide)
    (by decide) (by decide)

/-- Bind of a successful Except computation. -/
theorem ok_bind {α β : Type} (a : α) (f : α → Except Err β) :
    (Except.ok a : Except Err α) >>= f = f a := rfl

/-- Bind of a raised Except computation. -/
theorem error_bind {α β : Type} (e : Err) (f : α → Except Err β) :
    (Except.error e : Except Err α) >>= f = Except.error e := rfl

/-- Bind of a pure Except computation. -/
theorem bind_of_pure {α β : Type} (a : α) (f : α → Except Err β) :
    (pure a : Except Err α) >>= f = f a := rfl

/-- C3: a run of solve_yi_xiT that exhausts the 30-iteration cap, whose
bounded least-squares re-solve leaves an objective 7/12 far above the
tolerance 1e-8, still returns flag 0 (vapor) with a finite coefficient
vector: the NoStablePhase flag and NaN vector the source prepares in that
branch are dead stores, so the documented flagging never happens. -/
theorem solve_yi_xiT_cap_flag_dead_store :
    solve_yi_xiT envC3 [EF.num (qlit 1 4), EF.num (qlit 3 4)]
        [EF.num (qlit 1 2), EF.num (qlit 1 2)] [EF.num 1, EF.num 1]
        (EF.num 1) 300 optsTest 30 (qlit 1 100000000)
      = .ok (([EF.num (qlit 1 3), EF.num (qlit 2 3)],
          [EF.num 1, EF.num 3], EF.num 0), none) ∧
    obj_yi envC3 [EF.num (qlit 1 3), EF.num (qlit 2 3)] (EF.num 1) 300
        [EF.num 1, EF.num 1] [EF.num (qlit 1 2), EF.num (qlit 1 2)] optsTest
      = .ok (EF.num (qlit 7 12), EF.num 0) ∧
    EF.gtb (EF.num (qlit 7 12)) (EF.num (qlit 1 100000000)) = true ∧
    (EF.num 0 = EF.num 3 → False) ∧
    ([EF.num 1, EF.num 3] : List EF).any EF.isnan = false :=
  ⟨by decide, by decide, by decide, by decide, by decide⟩

/-- C5 (amended): a composition with other than one nonzero entry makes
calc_Psat raise: the generic multiple-components error when the count of
entries above 10% differs from one (so two components above 10% get an
error naming no component), and otherwise an error naming the bead of the
first entry above 10% (an index error when the bead list is too short). -/
theorem calc_Psat_validation (env : Env) (T : ℚ) (xi : List EF) (o : RhoOpts)
    (h : xi.countP (fun x => EF.neb x (EF.num 0)) ≠ 1) :
    calc_Psat env T xi o =
      (if xi.countP (fun x => EF.gtb x (EF.num (qlit 1 10))) ≠ 1 then
        Except.error Err.valueMultipleAbove10
      else
        match xi.findIdx? (fun x => EF.gtb x (EF.num (qlit 1 10))) with
        | none => Except.error Err.indexOut
        | some i =>
          match env.eos.beads.get? i with
          | none => Except.error Err.indexOut
          | some bead => Except.error (Err.valueMultipleNonzero bead)) := by
  unfold calc_Psat
  rw [if_pos h]
  rfl

/-- C5 witness: a binary composition with entries 3/4 and 1/20 has two
nonzero entries but exactly one above 10%, so the raised error names the
bead of that entry. -/
theorem calc_Psat_validation_witness :
    calc_Psat envVap 300 [EF.num (qlit 3 4), EF.num (qlit 1 20)] optsTest
      = .error (Err.valueMultipleNonzero "CO2") := by
  have h := calc_Psat_validation envVap 300
    [EF.num (qlit 3 4), EF.num (qlit 1 20)] optsTest (by decide)
  rw [h]
  decide

/-- C5 counterexample: an equimolar binary composition has both components
above 10% mole fraction; calc_Psat raises, but the error is the generic
multiple-components one, which is distinct from the component-identifying
error for every bead name, so no offending component is identified. -/
theorem calc_Psat_generic_error_counterexample :
    calc_Psat envVap 300 [EF.num (qlit 1 2), EF.num (qlit 1 2)] optsTest
      = .error Err.valueMultipleAbove10 ∧
    ∀ bead, Err.valueMultipleAbove10 ≠ Err.valueMultipleNonzero bead :=
  ⟨by decide, fun _ h => Err.noConfusion h⟩

/-- C8 (amended): PvsV_spline replaces the roots by the single value NaN
exactly when some raw pressure sample is NaN; with no NaN sample the spline
roots are passed through, even when a sample is an infinity. -/
theorem PvsV_spline_nan_policy (env : Env) (vl : List ℚ) (Pl : List EF) :
    (Pl.any EF.isnan = true → (PvsV_spline env vl Pl).1 = [EF.nan]) ∧
    (Pl.any EF.isnan = false →
      (PvsV_spline env vl Pl).1 = env.orc.sproots vl Pl) := by
  constructor <;> intro h <;> unfold PvsV_spline <;> simp [h]

/-- C8 witness: a curve with a NaN sample reports roots as the single NaN. -/
theorem PvsV_spline_nan_policy_witness :
    (PvsV_spline envVap [] [EF.nan]).1 = [EF.nan] :=
  (PvsV_spline_nan_policy envVap [] [EF.nan]).1 (by decide)

/-- C8 counterexample: a pressure list with a non-finite (infinite) sample
and no NaN keeps the spline's roots instead of reporting them unavailable:
the check is np.isnan, not a finiteness check. -/
theorem PvsV_spline_inf_counterexample :
    (PvsV_spline envVap [] [EF.pinf]).1 = [EF.num 1, EF.num 2, EF.num 4] ∧
    EF.pinf.isnan = false ∧ (∀ q : ℚ, EF.pinf ≠ EF.num q) ∧
    ([EF.num 1, EF.num 2, EF.num 4] : List EF) ≠ [EF.nan] :=
  ⟨rfl, rfl, fun _ h => EF.noConfusion h, by decide⟩

/-- C2 counterexample: a one-component system classified NoStablePhase gets
the hardcoded two-entry NaN vector, whose length differs from the number of
components. -/
theorem calc_phiv_flag3_length_counterexample :
    calc_phiv envFlag3 (EF.num 1) 300 [EF.num 1] optsTest
      = .ok ([EF.nan, EF.nan], EF.nan, EF.num 3) ∧
    ([EF.nan, EF.nan] : List EF).length ≠ ([EF.num 1] : List EF).length :=
  ⟨by decide, by decide⟩

/-- C7 counterexample: with four spline roots 1, 2, 4, 8 ordered by
increasing specific volume, calc_rhov returns the reciprocal of the third
root, not of the root closest to infinite specific volume (the fourth). -/
theorem calc_rhov_fourth_root_counterexample :
    (PvsV_spline env4r [qlit 2 7, qlit 2 5, qlit 2 3, qlit 2 1]
        [EF.num (-1), EF.num (-1), EF.num (-1), EF.num (-1)]).1
      = [EF.num 1, EF.num 2, EF.num 4, EF.num 8] ∧
    calc_rhov env4r (EF.num 1) 300
        [EF.num (qlit 1 2), EF.num (qlit 1 2)] optsTest
      = .ok (EF.num (qlit 1 4), EF.num 0) ∧
    EF.num (qlit 1 4) ≠ EF.div (EF.num 1) (EF.num 8) :=
  ⟨by decide, by decide, by decide⟩

/-- C2 (amended): dispatch of the fugacity wrappers on the classifier flag:
an ideal-gas classification (flag 4) returns unit coefficients of the
composition's length with zero density; a no-stable-phase classification
(flag 3) returns the hardcoded two-entry NaN vector; every other flag
delegates to the EOS fugacity_coefficient at the computed density. -/
theorem calc_phi_dispatch (env : Env) (P : EF) (T : ℚ) (ci : List EF)
    (o : RhoOpts) :
    (∀ v, calc_phiv env P T ci o = .ok v →
      (v.2.2 = EF.num 4 →
        v.1 = List.replicate ci.length (EF.num 1) ∧ v.2.1 = EF.num 0) ∧
      (v.2.2 = EF.num 3 → v.1 = [EF.nan, EF.nan]) ∧
      (v.2.2 ≠ EF.num 4 → v.2.2 ≠ EF.num 3 →
        v.1 = env.eos.fugacity_coefficient P v.2.1 ci T)) ∧
    (∀ v, calc_phil env P T ci o = .ok v →
      (v.2.2 = EF.num 3 → v.1 = [EF.nan, EF.nan]) ∧
      (v.2.2 ≠ EF.num 3 → v.1 = env.eos.fugacity_coefficient P v.2.1 ci T)) := by
  constructor
  · intro v h
    unfold calc_phiv at h
    cases hr : calc_rhov env P T ci o with
    | error e => rw [hr, error_bind] at h; exact Except.noConfusion h
    | ok r =>
      rw [hr, ok_bind] at h
      by_cases h4 : r.2 = EF.num 4
      · rw [if_pos h4] at h
        injection h with h
        subst h
        refine ⟨fun _ => ⟨rfl, rfl⟩, fun hc => ?_, fun hc _ => absurd h4 hc⟩
        rw [h4] at hc
        exact absurd hc (by decide)
      · rw [if_neg h4] at h
        by_cases h3 : r.2 = EF.num 3
        · rw [if_pos h3] at h
          injection h with h
          subst h
          refine ⟨fun hc => ?_, fun _ => rfl, fun _ hc => absurd h3 hc⟩
          rw [h3] at hc
          exact absurd hc (by decide)
        · rw [if_neg h3] at h
          injection h with h
          subst h
          exact ⟨fun hc => absurd hc h4, fun hc => absurd hc h3,
            fun _ _ => rfl⟩
  · intro v h
    unfold calc_phil at h
    cases hr : calc_rhol env P T ci o with
    | error e => rw [hr, error_bind] at h; exact Except.noConfusion h
    | ok r =>
      rw [hr, ok_bind] at h
      by_cases h3 : r.2 = EF.num 3
      · rw [if_pos h3] at h
        injection h with h
        subst h
        refine ⟨fun _ => rfl, fun hc => absurd h3 hc⟩
      · rw [if_neg h3] at h
        injection h with h
        subst h
        exact ⟨fun hc => absurd hc h3, fun _ => rfl⟩

/-- C2 witness: on the three-root environment the vapor wrapper classifies
flag 0 at density 1/4 and returns the EOS coefficients there. -/
theorem calc_phi_dispatch_witness :
    ([EF.num 9, EF.num 9] : List EF)
      = envVap.eos.fugacity_coefficient (EF.num 1) (EF.num (qlit 1 4))
          [EF.num (qlit 1 2), EF.num (qlit 1 2)] 300 :=
  ((calc_phi_dispatch envVap (EF.num 1) 300
        [EF.num (qlit 1 2), EF.num (qlit 1 2)] optsTest).1
      ([EF.num 9, EF.num 9], EF.num (qlit 1 4), EF.num 0) (by decide)).2.2
    (by decide) (by decide)

/-- On a pure composition whose curve has fewer than two extrema or NaN
roots, calc_Psat returns the no-solution triple: NaN saturation pressure
and the two dummy reciprocal densities 1/1. -/
theorem calc_Psat_nosol_aux (env : Env) (T : ℚ) (xi : List EF) (o : RhoOpts)
    (vl : List ℚ) (Pl : List EF)
    (hone : xi.countP (fun x => EF.neb x (EF.num 0)) = 1)
    (hcur : PvsRho env T xi o = .ok (vl, Pl))
    (hfew : (PvsV_spline env vl Pl).2.length < 2 ∨
      (PvsV_spline env vl Pl).1.any EF.isnan = true) :
    calc_Psat env T xi o
      = .ok (EF.nan, EF.div (EF.num 1) (EF.num 1),
          EF.div (EF.num 1) (EF.num 1)) := by
  unfold calc_Psat
  rw [if_neg (by simp [hone])]
  rw [hcur, ok_bind]
  rcases hsp : PvsV_spline env vl Pl with ⟨rs, ex⟩
  rw [hsp] at hfew
  dsimp only
  rw [hsp]
  dsimp only
  rcases hfew with hl | hr
  · rw [if_pos (by simp [hl])]
    rfl
  · rw [if_pos (by simp [hr])]
    rfl

/-- C6: a pure composition whose P-v curve yields fewer than two spline
extrema (or NaN roots) makes calc_Psat report no solution by returning a
NaN saturation pressure, with no exception raised. -/
theorem calc_Psat_supercritical (env : Env) (T : ℚ) (xi : List EF)
    (o : RhoOpts) (vl : List ℚ) (Pl : List EF)
    (hone : xi.countP (fun x => EF.neb x (EF.num 0)) = 1)
    (hcur : PvsRho env T xi o = .ok (vl, Pl))
    (hfew : (PvsV_spline env vl Pl).2.length < 2 ∨
      (PvsV_spline env vl Pl).1.any EF.isnan = true) :
    calc_Psat env T xi o
      = .ok (EF.nan, EF.div (EF.num 1) (EF.num 1),
          EF.div (EF.num 1) (EF.num 1)) :=
  calc_Psat_nosol_aux env T xi o vl Pl hone hcur hfew

/-- C6 witness: the single-extremum environment on the first pure component
returns the NaN saturation pressure without raising. -/
theorem calc_Psat_supercritical_witness :
    calc_Psat envC6 300 [EF.num 1, EF.num 0] optsTest
      = .ok (EF.nan, EF.div (EF.num 1) (EF.num 1),
          EF.div (EF.num 1) (EF.num 1)) :=
  calc_Psat_supercritical envC6 300 [EF.num 1, EF.num 0] optsTest
    [qlit 2 7, qlit 2 5, qlit 2 3, qlit 2 1]
    [EF.num 0, EF.num 0, EF.num 0, EF.num 0]
    (by decide) (by decide) (Or.inl (by decide))

/-- C9: in calc_Psat's no-solution branch only the saturation pressure is
NaN; the returned liquid and vapor densities are both exactly 1.0 and in
particular not NaN, so the supercritical case is detectable only from the
Psat output. -/
theorem calc_Psat_no_solution_densities (env : Env) (T : ℚ) (xi : List EF)
    (o : RhoOpts) (vl : List ℚ) (Pl : List EF)
    (hone : xi.countP (fun x => EF.neb x (EF.num 0)) = 1)
    (hcur : PvsRho env T xi o = .ok (vl, Pl))
    (hfew : (PvsV_spline env vl Pl).2.length < 2 ∨
      (PvsV_spline env vl Pl).1.any EF.isnan = true) :
    ∃ r, calc_Psat env T xi o = .ok r ∧ r.1.isnan = true ∧
      r.2.1 = EF.num 1 ∧ r.2.2 = EF.num 1 ∧
      r.2.1.isnan = false ∧ r.2.2.isnan = false :=
  ⟨(EF.nan, EF.div (EF.num 1) (EF.num 1), EF.div (EF.num 1) (EF.num 1)),
    calc_Psat_nosol_aux env T xi o vl Pl hone hcur hfew,
    rfl, by decide, by decide, by decide, by decide⟩

/-- C9 witness: the single-extremum environment on the second pure
component returns unit densities with the NaN saturation pressure. -/
theorem calc_Psat_no_solution_densities_witness :
    ∃ r, calc_Psat envC6 300 [EF.num 0, EF.num 1] optsTest = .ok r ∧
      r.1.isnan = true ∧ r.2.1 = EF.num 1 ∧ r.2.2 = EF.num 1 ∧
      r.2.1.isnan = false ∧ r.2.2.isnan = false :=
  calc_Psat_no_solution_densities envC6 300 [EF.num 0, EF.num 1] optsTest
    [qlit 2 7, qlit 2 5, qlit 2 3, qlit 2 1]
    [EF.num 0, EF.num 0, EF.num 0, EF.num 0]
    (by decide) (by decide) (Or.inl (by decide))

/-- C7 (amended): when the shifted curve has exactly three spline roots
(ordered by increasing specific volume) and the shifted pressure samples
keep one sign (so root refinement leaves the estimates alone), calc_rhov
returns the reciprocal of the third root with the Vapor flag and calc_rhol
the reciprocal of the first root with the Liquid flag: the two classifiers
select opposite ends of the root list. -/
theorem calc_rho_three_roots_select (env : Env) (P : EF) (T : ℚ)
    (xi : List EF) (o : RhoOpts) (vl : List ℚ) (Pl : List EF)
    (r0 r1 r2 : EF) (ex : List EF) (p0 : EF)
    (hcur : PvsRho env T xi o = .ok (vl, Pl))
    (hsp : PvsV_spline env vl (Pl.map (fun x => EF.sub x P))
      = ([r0, r1, r2], ex))
    (h0 : r0.isnan = false) (h1 : r1.isnan = false) (h2 : r2.isnan = false)
    (hsign : ∀ a b : EF, EF.ltb (EF.mul (Pdiff env a P T xi)
      (Pdiff env b P T xi)) (EF.num 0) = false)
    (hhead : (Pl.map (fun x => EF.sub x P)).head? = some p0)
    (hneg : EF.ltb p0 (EF.num 0) = true) :
    calc_rhov env P T xi o = .ok (EF.div (EF.num 1) r2, EF.num 0) ∧
    calc_rhol env P T xi o = .ok (EF.div (EF.num 1) r0, EF.num 1) := by
  constructor
  · unfold calc_rhov
    rw [hcur, ok_bind]
    dsimp only
    rw [hsp]
    dsimp only
    rw [if_neg (by simp [h0, h1, h2])]
    rw [if_neg (by simp), if_neg (by simp), if_neg (by simp)]
    rw [show getE [r0, r1, r2] 2 = Except.ok r2 from rfl]
    simp only [ok_bind, bind_of_pure]
    dsimp only
    rw [if_pos (by decide)]
    rw [hsign, if_neg (by decide)]
    rw [hhead]
    dsimp only
    rw [if_pos hneg]
    rfl
  · unfold calc_rhol
    rw [hcur, ok_bind]
    dsimp only
    rw [hsp]
    dsimp only
    rw [if_neg (by simp [h0, h1, h2])]
    rw [if_neg (by simp), if_neg (by simp), if_neg (by simp)]
    rw [show getE [r0, r1, r2] 0 = Except.ok r0 from rfl]
    simp only [ok_bind, bind_of_pure]
    dsimp only
    rw [if_pos (by decide)]
    rw [hsign, if_neg (by decide)]
    rw [hhead]
    dsimp only
    rw [if_pos hneg]
    rfl

/-- C7 witness: on the three-root environment the classifiers return the
reciprocals of the third and first roots with flags 0 and 1. -/
theorem calc_rho_three_roots_select_witness :
    calc_rhov envVap (EF.num 1) 300 [EF.num (qlit 1 2), EF.num (qlit 1 2)]
        optsTest = .ok (EF.div (EF.num 1) (EF.num 4), EF.num 0) ∧
    calc_rhol envVap (EF.num 1) 300 [EF.num (qlit 1 2), EF.num (qlit 1 2)]
        optsTest = .ok (EF.div (EF.num 1) (EF.num 1), EF.num 1) :=
  calc_rho_three_roots_select envVap (EF.num 1) 300
    [EF.num (qlit 1 2), EF.num (qlit 1 2)] optsTest
    [qlit 2 7, qlit 2 5, qlit 2 3, qlit 2 1]
    [EF.num 0, EF.num 0, EF.num 0, EF.num 0]
    (EF.num 1) (EF.num 2) (EF.num 4) [EF.num 1, EF.num 3] (EF.num (-1))
    (by decide) (by decide) (by decide) (by decide) (by decide)
    (fun _ _ => rfl) (by decide) (by decide)

/-- One setPsat step neither raises (within the bead list) nor writes
anything but one of the three hardcoded pressures. -/
theorem setPsatStep_shape (eos : EOS) (row : List ℚ)
    (st : Option EF × Option String) (j : ℕ) (hj : j < eos.beads.length) :
    ∃ st', setPsatStep eos row st j = .ok st' ∧
      ((¬ 0 < row.getD j 0 ∧ st' = st) ∨
        ∃ q, st'.1 = some (EF.num q) ∧
          (q = qlit 10377000 1 ∨ q = qlit 7377000 1 ∨ q = qlit 6377000 1)) := by
  unfold setPsatStep
  by_cases hp : 0 < row.getD j 0
  · rw [if_pos hp]
    cases hb : eos.beads.get? j with
    | none => exact absurd (List.get?_eq_none.mp hb) (Nat.not_le.mpr hj)
    | some bead =>
      dsimp only
      split_ifs <;>
        exact ⟨_, rfl, Or.inr ⟨_, rfl, by simp⟩⟩
  · rw [if_neg hp]
    exact ⟨st, rfl, Or.inl ⟨hp, rfl⟩⟩

/-- Folding setPsat's step over indices inside the bead list either keeps
the state (no positive entry among them) or leaves one of the hardcoded
pressures in it. -/
theorem setPsatFold_shape (eos : EOS) (row : List ℚ) :
    ∀ (js : List ℕ) (st : Option EF × Option String),
      (∀ j ∈ js, j < eos.beads.length) →
      ∃ st', js.foldlM (setPsatStep eos row) st = .ok st' ∧
        (((∀ j ∈ js, ¬ 0 < row.getD j 0) ∧ st' = st) ∨
          ∃ q, st'.1 = some (EF.num q) ∧
            (q = qlit 10377000 1 ∨ q = qlit 7377000 1 ∨ q = qlit 6377000 1))
  | [], st, _ => ⟨st, rfl, Or.inl ⟨by simp, rfl⟩⟩
  | j :: js, st, hlt => by
    obtain ⟨st1, hs1, hc1⟩ := setPsatStep_shape eos row st j (hlt j (by simp))
    obtain ⟨st2, hs2, hc2⟩ := setPsatFold_shape eos row js st1
      (fun k hk => hlt k (by simp [hk]))
    refine ⟨st2, ?_, ?_⟩
    · rw [List.foldlM_cons, hs1, ok_bind, hs2]
    · rcases hc2 with ⟨hall2, rfl⟩ | hS2
      · rcases hc1 with ⟨hnp1, rfl⟩ | hS1
        · refine Or.inl ⟨?_, rfl⟩
          intro k hk
          rcases List.mem_cons.mp hk with rfl | hk2
          · exact hnp1
          · exact hall2 k hk2
        · exact Or.inr hS1
      · exact Or.inr hS2

/-- C10: for a component whose stoichiometry row has a positive entry (with
the row inside the bead list), setPsat succeeds with one of the three
hardcoded finite pressures, never NaN, so the callers' critical-point error
branch on a NaN setPsat result cannot fire for such components. -/
theorem setPsat_positive_entry_not_nan (eos : EOS) (ind : ℕ)
    (hind : ind < eos.nui.length)
    (hbl : (eos.nui.getD ind []).length ≤ eos.beads.length)
    (hpos : ∃ j, j < (eos.nui.getD ind []).length ∧
      0 < (eos.nui.getD ind []).getD j 0) :
    ∃ q s, setPsat ind eos = .ok (EF.num q, s) ∧
      (EF.num q).isnan = false ∧
      (q = qlit 10377000 1 ∨ q = qlit 7377000 1 ∨ q = qlit 6377000 1) := by
  obtain ⟨j, hj, hjp⟩ := hpos
  obtain ⟨st', hfold, hshape⟩ := setPsatFold_shape eos (eos.nui.getD ind [])
    (List.range (eos.nui.getD ind []).length) (none, none)
    (fun k hk => lt_of_lt_of_le (List.mem_range.mp hk) hbl)
  rcases hshape with ⟨hall, rfl⟩ | ⟨q, hq, hS⟩
  · exact absurd hjp (hall j (List.mem_range.mpr hj))
  · refine ⟨q, st'.2.getD "No NaNbead", ?_, rfl, hS⟩
    unfold setPsat
    rw [if_pos hind]
    dsimp only
    rw [hfold, ok_bind, hq]
    rfl

/-- C10 witness: the second component of the identity stoichiometry matrix
over the beads CO2 and H2O takes the generic fallback pressure. -/
theorem setPsat_positive_entry_not_nan_witness :
    ∃ q s, setPsat 1 envVap.eos = .ok (EF.num q, s) ∧
      (EF.num q).isnan = false ∧
      (q = qlit 10377000 1 ∨ q = qlit 7377000 1 ∨ q = qlit 6377000 1) :=
  setPsat_positive_entry_not_nan envVap.eos 1 (by decide) (by decide)
    ⟨1, by decide, by decide⟩

/-- C4 (amended): how bracketing failure is reported differs by direction.
For the bubble-point side, exhaustion of calc_Prange_xi's first loop raises
the minimum-pressure iteration error, and a NaN range from its second loop
makes calc_xT_phase raise the no-Prange error.  For the dew-point side,
calc_yT_phase performs no check at all: whatever range and guess
calc_Prange_yi returns (including the NaN range and NaN guess of an
exhausted cap) is handed directly to the root-solver stage. -/
theorem prange_exhaustion_contrast (env : Env) :
    (∀ T xi yi o zi Pmin g st0 st1,
      prangeXiInit env T xi yi o Pmin g = .ok st0 →
      prangeXiLoop1 env T xi o zi Pmin 0 200 st0 = .ok (199, st1) →
      calc_Prange_xi env T xi yi o zi Pmin g = .error Err.valuePminIter) ∧
    (∀ xi T o zi Pg g pre pr,
      xTprelude env xi T o Pg g = .ok pre →
      calc_Prange_xi env T xi pre.comp o zi (EF.num 10000) pre.glob
        = .ok pr →
      pr.1.1.any EF.isnan = true →
      calc_xT_phase env xi T o zi Pg g = .error Err.valueNoPrange) ∧
    (∀ yi T o zi Pg g pre pr,
      yTprelude env yi T o Pg g = .ok pre →
      calc_Prange_yi env T pre.comp yi o zi pre.glob = .ok pr →
      calc_yT_phase env yi T o zi Pg g
        = yTfinish env yi T o zi pre.comp pr) := by
  refine ⟨?_, ?_, ?_⟩
  · intro T xi yi o zi Pmin g st0 st1 h0 h1
    unfold calc_Prange_xi
    rw [h0, ok_bind, h1, ok_bind]
    rfl
  · intro xi T o zi Pg g pre pr h0 h1 h2
    unfold calc_xT_phase
    rw [h0, ok_bind, h1, ok_bind]
    rw [if_pos h2]
    rfl
  · intro yi T o zi Pg g pre pr h0 h1
    unfold calc_yT_phase
    rw [h0, ok_bind, h1, ok_bind]

/-- C4 witness: on the bubble-point environment the second bracketing loop
sees a rising objective, records that no sign change is reachable, returns
the NaN range, and calc_xT_phase raises. -/
theorem prange_exhaustion_contrast_witness :
    calc_xT_phase envC4x [EF.num (qlit 3 4), EF.num (qlit 1 4)] 300
      optsTest2 defaultZiY (EF.num (-1)) none
      = .error Err.valueNoPrange :=
  (prange_exhaustion_contrast envC4x).2.1
    [EF.num (qlit 3 4), EF.num (qlit 1 4)] 300 optsTest2 defaultZiY
    (EF.num (-1)) none
    ⟨[EF.num 12, EF.num 9], EF.num (qlit 144 13),
      some [EF.num (qlit 4 5), EF.num (qlit 1 5)],
      [EF.num (qlit 4 5), EF.num (qlit 1 5)]⟩
    (([EF.nan, EF.nan], EF.nan),
      some [EF.num (qlit 12 13), EF.num (qlit 1 13)])
    (by decide) (by decide) (by decide)

/-- First iteration of the dew-point bracketing run. -/
theorem prangeYi_step0 (n : ℕ) :
    prangeYiLoop envC4y 300 Y4 optsTest2 defaultZiX 0 (n + 1) st0Y
      = prangeYiLoop envC4y 300 Y4 optsTest2 defaultZiX 1 n stAY := rfl

/-- Second iteration of the dew-point bracketing run. -/
theorem prangeYi_step1 (n : ℕ) :
    prangeYiLoop envC4y 300 Y4 optsTest2 defaultZiX 1 (n + 1) stAY
      = prangeYiLoop envC4y 300 Y4 optsTest2 defaultZiX 2 n stBY := rfl

/-- Third iteration of the dew-point bracketing run, reaching the fixed
point. -/
theorem prangeYi_step2 (n : ℕ) :
    prangeYiLoop envC4y 300 Y4 optsTest2 defaultZiX 2 (n + 1) stBY
      = prangeYiLoop envC4y 300 Y4 optsTest2 defaultZiX 3 n stFixY := rfl

/-- From the third iteration on, the dew-point bracketing state never
changes again, so the loop runs out its fuel and reports the counter of the
last iteration. -/
theorem prangeYi_fix : ∀ (n i : ℕ), 2 ≤ i →
    prangeYiLoop envC4y 300 Y4 optsTest2 defaultZiX i n stFixY
      = .ok (i + n - 1, stFixY)
  | 0, i, _ => rfl
  | n + 1, i, hi => by
    have h0 : ¬ i = 0 := by omega
    have h1 : ¬ i = 1 := by omega
    have h2 : prangeYiLoop envC4y 300 Y4 optsTest2 defaultZiX i (n + 1)
        stFixY
        = prangeYiLoop envC4y 300 Y4 optsTest2 defaultZiX (i + 1) n
          stFixY := by
      conv_lhs => rw [prangeYiLoop]
      simp only [if_neg h0, if_neg h1]
      rfl
    rw [h2, prangeYi_fix n (i + 1) (by omega)]
    have h3 : i + 1 + n - 1 = i + (n + 1) - 1 := by omega
    rw [h3]

/-- The dew-point bracketing loop exhausts its 200-iteration cap. -/
theorem prangeYi_key :
    prangeYiLoop envC4y 300 Y4 optsTest2 defaultZiX 0 200 st0Y
      = .ok (199, stFixY) := by
  rw [show (200 : ℕ) = 199 + 1 from rfl, prangeYi_step0 199]
  rw [show (199 : ℕ) = 198 + 1 from rfl, prangeYi_step1 198]
  rw [show (198 : ℕ) = 197 + 1 from rfl, prangeYi_step2 197]
  rw [prangeYi_fix 197 3 (by omega)]

/-- calc_Prange_yi on the dew-point environment: the exhausted cap yields
the NaN range and NaN guess, with no error. -/
theorem prangeYi_nanC4 :
    calc_Prange_yi envC4y 300 X4 Y4 optsTest2 defaultZiX (some X4)
      = .ok (([EF.nan, EF.nan], EF.nan), some XF) := by
  unfold calc_Prange_yi
  rw [show prangeYiInit envC4y 300 X4 Y4 optsTest2 (some X4)
      = Except.ok st0Y from rfl, ok_bind]
  rw [prangeYi_key, ok_bind]
  rfl

/-- calc_yT_phase on the dew-point environment: the NaN bracket flows into
the root-solver stage unchecked and a numeric state point is returned. -/
theorem yT_silentC4 :
    calc_yT_phase envC4y Y4 300 optsTest2 defaultZiX (EF.num (-1)) none
      = .ok ((EF.num 7, X4, EF.num 1, EF.num 0, EF.num (qlit (-1) 6)),
          some XF) := by
  unfold calc_yT_phase
  rw [show yTprelude envC4y Y4 300 optsTest2 (EF.num (-1)) none
      = Except.ok ⟨[EF.num 12, EF.num 9], EF.num (qlit 144 13),
          some X4, X4⟩ from rfl, ok_bind]
  rw [show calc_Prange_yi envC4y 300
        (⟨[EF.num 12, EF.num 9], EF.num (qlit 144 13), some X4, X4⟩ :
          PhasePre).comp Y4 optsTest2 defaultZiX
        (⟨[EF.num 12, EF.num 9], EF.num (qlit 144 13), some X4, X4⟩ :
          PhasePre).glob
      = .ok (([EF.nan, EF.nan], EF.nan), some XF) from prangeYi_nanC4,
    ok_bind]
  rfl

/-- C4 counterexample: on the dew-point environment calc_Prange_yi exhausts
its 200-iteration cap and returns the NaN range with a NaN guess, yet
calc_yT_phase raises no error and returns a numeric state point (pressure 7
from the root solver, flags 1 and 0, objective -1/6). -/
theorem calc_yT_phase_silent_counterexample :
    calc_Prange_yi envC4y 300 [EF.num (qlit 9 13), EF.num (qlit 4 13)]
        [EF.num (qlit 3 4), EF.num (qlit 1 4)] optsTest2 defaultZiX
        (some [EF.num (qlit 9 13), EF.num (qlit 4 13)])
      = .ok (([EF.nan, EF.nan], EF.nan),
          some [EF.num (qlit 3 5), EF.num (qlit 2 5)]) ∧
    calc_yT_phase envC4y [EF.num (qlit 3 4), EF.num (qlit 1 4)] 300
        optsTest2 defaultZiX (EF.num (-1)) none
      = .ok ((EF.num 7, [EF.num (qlit 9 13), EF.num (qlit 4 13)],
          EF.num 1, EF.num 0, EF.num (qlit (-1) 6)),
          some [EF.num (qlit 3 5), EF.num (qlit 2 5)]) :=
  ⟨prangeYi_nanC4, yT_silentC4⟩

end Despasito
